import Mathlib

/-!
Verification development for the TalentScout hiring-assistant repository.

This file gives a shallow embedding, in Lean, of the conversation stage
machine, field extraction, LLM routing/fallback, technical-question
generation, session persistence, and history management of the Python
source (src/utils/conversation.py, src/utils/llm_router.py,
src/utils/tech_questions.py, src/utils/data_handler.py, src/config.py),
and proves properties of that embedding.

Modelling conventions:
- Python dicts of optional fields become a structure of `Option` fields;
  key presence is `isSome`.  Keys of the candidate record that no claim
  reads (sentiment_history, language_suggestion, language_switches,
  sentiment_analysis) are collapsed into a single `extra : Bool` flag that
  records whether any such key is present (this only matters for the
  "record is empty" test).
- Outbound LLM calls, the regex-based field extractors that no claim
  inspects, the language auto-switch decision, and the random choices of
  the question generator are nondeterministic from the program's point of
  view; they are modelled as components of an `Env` record, one `Env` per
  processed turn.  All control flow and every write to the candidate
  record is embedded concretely.  `random.shuffle` is axiomatised only
  through `EnvWF` (it preserves length, which is its contract).
- Machine integers do not overflow in any modelled path; counts are `Nat`
  and Python `int` values that can be compared against negatives are `Int`.
- File and network I/O cannot raise in the embedding; the session store
  models the success/failure of a write or read with explicit flags.
-/

namespace TalentScout

/-! ## Basic character and string helpers (Python semantics, ASCII) -/

/-- Python `\s` character class over ASCII: space, tab, newline, carriage
return, form feed, vertical tab. -/
def isPySpace (c : Char) : Bool :=
  c = ' ' || c = '\t' || c = '\n' || c = '\r' || c = '\x0c' || c = '\x0b'

/-- Python regex word character `\w` (ASCII): letters, digits, underscore. -/
def isWordChar (c : Char) : Bool :=
  c.isAlpha || c.isDigit || c = '_'

/-- Boolean prefix test on character lists. -/
def isPrefixList : List Char → List Char → Bool
  | [], _ => true
  | _ :: _, [] => false
  | a :: as, b :: bs => a = b && isPrefixList as bs

/-- Python `needle in hay` substring test on character lists. -/
def containsSub (needle : List Char) : List Char → Bool
  | [] => needle.isEmpty
  | c :: rest => isPrefixList needle (c :: rest) || containsSub needle rest

/-- Python `str.strip()` (ASCII whitespace). -/
def pyStrip (cs : List Char) : List Char :=
  ((cs.dropWhile isPySpace).reverse.dropWhile isPySpace).reverse

/-- Split a character list on the newline character, like
Python `str.split('\n')`. -/
def splitLines : List Char → List (List Char)
  | [] => [[]]
  | c :: rest =>
    if c = '\n' then [] :: splitLines rest
    else
      match splitLines rest with
      | [] => [[c]]
      | l :: ls => (c :: l) :: ls

/-- Drop the character list `p` from the front of `t` when `p` is a prefix,
returning the remainder. -/
def dropPrefixList : List Char → List Char → Option (List Char)
  | [], t => some t
  | _ :: _, [] => none
  | a :: as, b :: bs => if a = b then dropPrefixList as bs else none

/-- Word-boundary test used by `\b`: the boundary between an optional
previous character and an optional next character. -/
def atBoundary (prev next : Option Char) : Bool :=
  (match prev with | none => false | some c => isWordChar c)
    ≠ (match next with | none => false | some c => isWordChar c)

/-- Whether the (escaped, hence literal) pattern `p` matches at the head of
`t` with `\b` boundaries on both sides, given the character preceding `t`. -/
def wbMatchesHere (p : List Char) (prev : Option Char) (t : List Char) : Bool :=
  match p with
  | [] => false
  | p0 :: _ =>
    atBoundary prev (some p0) &&
    (match dropPrefixList p t with
     | none => false
     | some rest => atBoundary p.getLast? rest.head?)

/-- Search for `\b<literal p>\b` anywhere in the text, like
`re.search(rf"\b{re.escape(p)}\b", text)`. -/
def wbSearchAux (p : List Char) (prev : Option Char) : List Char → Bool
  | [] => false
  | c :: rest => wbMatchesHere p prev (c :: rest) || wbSearchAux p (some c) rest

def wbSearch (p text : List Char) : Bool :=
  wbSearchAux p none text

/-! ## Configuration (src/config.py) -/

def MAX_TECHNICAL_QUESTIONS : Nat := 5
def MIN_TECHNICAL_QUESTIONS : Nat := 3
def MAX_HISTORY_LENGTH : Nat := 10

/-- Tech-stack category vocabulary, in the (insertion-ordered) dict order of
`config.TECH_CATEGORIES`. -/
def TECH_CATEGORIES : List (String × List String) :=
  [("programming_languages",
    ["Python", "JavaScript", "Java", "C#", "C++", "Go", "Ruby", "PHP", "Swift", "Kotlin"]),
   ("frameworks",
    ["React", "Angular", "Vue.js", "Django", "Flask", "Spring", "ASP.NET", "Laravel",
     "Ruby on Rails"]),
   ("databases",
    ["MySQL", "PostgreSQL", "MongoDB", "SQLite", "Redis", "Oracle", "SQL Server", "DynamoDB"]),
   ("cloud_services",
    ["AWS", "Azure", "Google Cloud", "Firebase", "Heroku", "Netlify"]),
   ("tools",
    ["Docker", "Kubernetes", "Git", "Jenkins", "Travis CI", "Jira", "Confluence"])]

/-! ## Candidate record (the per-session JSON blob) -/

/-- One conversation-history entry (`{"role": ..., "content": ...}`;
the extra keys the language-switch marker carries are not modelled, as
nothing reads them). -/
structure HistEntry where
  role : String
  content : String
deriving Repr, DecidableEq

/-- The candidate record.  Each optional field is a dict key; `isSome`
models key presence.  `extra` records whether any non-modelled key
(sentiment_history, language_suggestion, language_switches,
sentiment_analysis) is present. -/
structure CandidateData where
  name : Option String := none
  email : Option String := none
  phone : Option String := none
  years_experience : Option Int := none
  position : Option String := none
  location : Option String := none
  tech_stack : Option (List String) := none
  technical_questions : Option (List String) := none
  technical_answers : Option (List String) := none
  conversation_complete : Option Bool := none
  conversation_history : List HistEntry := []
  language : Option String := none
  timestamp : Option String := none
  extra : Bool := false
deriving Repr, DecidableEq

/-- Python `if not self.candidate_data:` — the dict is empty. -/
def isEmptyData (d : CandidateData) : Bool :=
  d.name.isNone && d.email.isNone && d.phone.isNone && d.years_experience.isNone &&
  d.position.isNone && d.location.isNone && d.tech_stack.isNone &&
  d.technical_questions.isNone && d.technical_answers.isNone &&
  d.conversation_complete.isNone && d.conversation_history.isEmpty &&
  d.language.isNone && d.timestamp.isNone && !d.extra

/-- Length of the technical_answers list, treating a missing key as empty. -/
def ansLen (d : CandidateData) : Nat := (d.technical_answers.getD []).length

/-- Length of the technical_questions list, treating a missing key as empty. -/
def qLen (d : CandidateData) : Nat := (d.technical_questions.getD []).length

/-! ## Stage machine (ConversationManager.STAGES and
`_determine_current_stage`, src/utils/conversation.py lines 24-116) -/

def stageGreeting : Nat := 0
def stageName : Nat := 1
def stageContactInfo : Nat := 2
def stageExperience : Nat := 3
def stagePosition : Nat := 4
def stageLocation : Nat := 5
def stageTechStack : Nat := 6
def stageTechnicalQuestions : Nat := 7
def stageFarewell : Nat := 8
def stageComplete : Nat := 9

/-- Embedding of `_determine_current_stage`.  The Python walks
`STAGES.items()` in insertion order and returns the first stage whose
`REQUIRED_FIELDS` entry is not fully present; `contact_info` requires both
email and phone. -/
def determine_current_stage (d : CandidateData) : Nat :=
  if isEmptyData d then stageGreeting
  else if d.conversation_complete.getD false then stageComplete
  else if d.name.isNone then stageName
  else if d.email.isNone || d.phone.isNone then stageContactInfo
  else if d.years_experience.isNone then stageExperience
  else if d.position.isNone then stagePosition
  else if d.location.isNone then stageLocation
  else if d.tech_stack.isNone then stageTechStack
  else if d.technical_questions.isNone then stageTechnicalQuestions
  else if d.technical_answers.isNone ||
          (d.technical_answers.getD []).length < (d.technical_questions.getD []).length then
    stageTechnicalQuestions
  else stageFarewell

/-- Stage computation as the words of claim C5 describe it, reading the
length of an absent technical_answers list as 0: "... otherwise
technical_questions if technical_questions is absent or technical_answers
is shorter than technical_questions; otherwise farewell". -/
def claimStage (d : CandidateData) : Nat :=
  if isEmptyData d then stageGreeting
  else if d.conversation_complete.getD false then stageComplete
  else if d.name.isNone then stageName
  else if d.email.isNone || d.phone.isNone then stageContactInfo
  else if d.years_experience.isNone then stageExperience
  else if d.position.isNone then stagePosition
  else if d.location.isNone then stageLocation
  else if d.tech_stack.isNone then stageTechStack
  else if d.technical_questions.isNone ||
          (d.technical_answers.getD []).length < (d.technical_questions.getD []).length then
    stageTechnicalQuestions
  else stageFarewell

/-- Stage computation as claim C5 amended: additionally stay in
technical_questions whenever the technical_answers key is absent. -/
def claimStageAmended (d : CandidateData) : Nat :=
  if isEmptyData d then stageGreeting
  else if d.conversation_complete.getD false then stageComplete
  else if d.name.isNone then stageName
  else if d.email.isNone || d.phone.isNone then stageContactInfo
  else if d.years_experience.isNone then stageExperience
  else if d.position.isNone then stagePosition
  else if d.location.isNone then stageLocation
  else if d.tech_stack.isNone then stageTechStack
  else if d.technical_questions.isNone || d.technical_answers.isNone ||
          (d.technical_answers.getD []).length < (d.technical_questions.getD []).length then
    stageTechnicalQuestions
  else stageFarewell

/-! ## Email validation (`_validate_email`, conversation.py lines 530-537)

The regex is `^[a-zA-Z0-9._%+-]+@[a-zA-Z0-9.-]+\.[a-zA-Z]{2,}$`.  Because
`@` is in no character class, a match has exactly one `@`; because the TLD
part is alphabetic (dot-free), the separating `\.` is the last dot after
the `@`.  The matcher below decomposes the string accordingly, which is
equivalent to the regex's anchored-match semantics. -/

def isLocalChar (c : Char) : Bool :=
  c.isAlpha || c.isDigit || c = '.' || c = '_' || c = '%' || c = '+' || c = '-'

def isDomainChar (c : Char) : Bool :=
  c.isAlpha || c.isDigit || c = '.' || c = '-'

/-- Split at the first occurrence of `c`, returning the parts before and
after it. -/
def splitAtFirst (c : Char) : List Char → Option (List Char × List Char)
  | [] => none
  | x :: xs =>
    if x = c then some ([], xs)
    else (splitAtFirst c xs).map (fun p => (x :: p.1, p.2))

/-- Match of the regex body `[a-zA-Z0-9._%+-]+@[a-zA-Z0-9.-]+\.[a-zA-Z]{2,}`
against the whole character list. -/
def matchEmailBody (cs : List Char) : Bool :=
  match splitAtFirst '@' cs with
  | none => false
  | some (l, rest) =>
    match splitAtFirst '.' rest.reverse with
    | none => false
    | some (trev, drev) =>
      let t := trev.reverse
      let d := drev.reverse
      !l.isEmpty && l.all isLocalChar &&
      !d.isEmpty && d.all isDomainChar &&
      decide (2 ≤ t.length) && t.all (fun c => c.isAlpha)

/-- `re.match` of the `^`-anchored, `$`-terminated email pattern.  In
Python (without `re.MULTILINE`), `$` matches at the end of the string or
just before a newline at the end of the string, so the pattern also
accepts the body followed by one trailing newline. -/
def matchEmail (cs : List Char) : Bool :=
  matchEmailBody cs ||
  (cs.getLast? = some '\n' && matchEmailBody cs.dropLast)

/-- Embedding of `_validate_email`: length at most 254 (and non-empty),
then the anchored regex match. -/
def validate_email (email : String) : Bool :=
  if email = "" || 254 < email.length then false
  else matchEmail email.toList

/-- The `local@domain.tld` shape cut out by the regex body: a non-empty
local part over `[a-zA-Z0-9._%+-]`, one `@`, a non-empty domain over
`[a-zA-Z0-9.-]`, a final dot, and an alphabetic TLD of length at least
2. -/
def EmailShape (cs : List Char) : Prop :=
  ∃ l d t : List Char,
    cs = l ++ '@' :: (d ++ '.' :: t) ∧ l ≠ [] ∧ l.all isLocalChar ∧
    d ≠ [] ∧ d.all isDomainChar ∧ 2 ≤ t.length ∧ t.all (fun c => c.isAlpha)

/-! ## Tech-stack extraction (`_extract_tech_stack`, conversation.py
lines 475-514) -/

/-- `all_technologies`: every `config.TECH_CATEGORIES` entry in dict order,
followed by the additional list hard-coded in `_extract_tech_stack`. -/
def all_technologies : List String :=
  (TECH_CATEGORIES.map Prod.snd).flatten ++
  ["HTML", "CSS", "SASS", "SCSS", "TypeScript", "GraphQL", "REST API",
   "Microservices", "Agile", "Scrum", "TDD", "CI/CD", "DevOps",
   "Machine Learning", "Deep Learning", "AI", "Blockchain"]

/-- The abbreviation table `tech_variations`, in dict order. -/
def tech_variations : List (String × String) :=
  [("js", "JavaScript"), ("ts", "TypeScript"), ("py", "Python"),
   ("react.js", "React"), ("vue.js", "Vue.js"), ("node.js", "Node.js"),
   ("express.js", "Express.js")]

/-- Whole-word, case-insensitive occurrence of `tech` in the lowercased
message: `re.search(rf"\b{re.escape(tech.lower())}\b", message_lower)`. -/
def techMatch (messageLower : List Char) (tech : String) : Bool :=
  wbSearch (tech.toList.map Char.toLower) messageLower

/-- Embedding of `_extract_tech_stack`: collect vocabulary entries that
occur as whole words (in vocabulary order), then the expansions of matched
abbreviations not already collected; `None` when nothing matched. -/
def extract_tech_stack (message : String) : Option (List String) :=
  let messageLower := message.toList.map Char.toLower
  let found := all_technologies.filter (techMatch messageLower)
  let found :=
    tech_variations.foldl
      (fun acc vf =>
        if techMatch messageLower vf.1 && !acc.contains vf.2 then acc ++ [vf.2] else acc)
      found
  if found.isEmpty then none else some found

/-! ## The per-turn environment

Every outbound call and random draw made while processing one message is
a component of `Env`.  `groq` is the primary provider (the content of a
successful chat completion, `none` for a missing key / exception);
`openrouter` is the outcome list of the prioritized fallback models for a
prompt; `parseJsonArr` models `json.loads` applied to the regex-matched
JSON-array candidate of a response (`none` models `json.loads` raising);
`shuffle`, `choice` and `sample` model the `random` module; `cacheFresh`
models whether a present response-cache entry is inside its TTL;
`autoSwitch` models `LanguageManager.auto_switch_language`; the `ex*`
fields model the regex field extractors that no claim inspects; `reply`
supplies the free-text LLM reply for each conversational call site. -/
structure Env where
  groq : String → Option String
  openrouter : String → List (Option String)
  parseJsonArr : String → Option (List String)
  shuffle : List String → List String
  choice : List String → String
  sample : List String → Nat → List String
  cacheFresh : Bool
  autoSwitch : String → String → String × Bool × String
  exName : String → Option String
  exEmail : String → Option String
  exPhone : String → Option String
  exYears : String → Option Int
  exPosition : String → Option String
  exLocation : String → Option String
  sentimentOn : Bool
  reply : Nat → String

/-- The one fact about `random.shuffle` the development relies on: it
permutes its input in place, so the length is unchanged. -/
def EnvWF (env : Env) : Prop :=
  ∀ l : List String, (env.shuffle l).length = l.length

/-! ## LLM router (src/utils/llm_router.py) -/

/-- Python truthiness of an `Optional[str]`. -/
def optTruthy : Option String → Bool
  | none => false
  | some s => s ≠ ""

/-- Embedding of `_call_openrouter_fallback`: try each configured model in
order, returning the first non-empty content, else `None`. -/
def call_openrouter_fallback : List (Option String) → Option String
  | [] => none
  | none :: rest => call_openrouter_fallback rest
  | some c :: rest => if c ≠ "" then some c else call_openrouter_fallback rest

/-- The use-case-keyed canned strings of `_get_fallback_response`. -/
def fallback_responses : List (String × String) :=
  [("greeting",
    "Hello! I\x27m here to help you with your application. Could you please tell me your name?"),
   ("name",
    "Thank you for sharing your name. Could you please provide your email address and phone number?"),
   ("contact_info",
    "Great! Now could you tell me how many years of experience you have in the industry?"),
   ("experience", "Thank you. What type of position are you looking for?"),
   ("position", "Could you tell me your current location?"),
   ("location", "What technologies and programming languages are you proficient in?"),
   ("tech_stack",
    "Thank you for sharing your technical background. I\x27ll now ask you some technical questions."),
   ("technical_questions", "Thank you for your answer. Here\x27s the next question."),
   ("farewell",
    "Thank you for completing the interview. We\x27ll review your responses and get back to you soon."),
   ("general",
    "I apologize, but I\x27m having trouble connecting to my knowledge base. Could you please try again in a moment?")]

/-- Embedding of `_get_fallback_response`:
`fallback_responses.get(use_case, fallback_responses["general"])`. -/
def get_fallback_response (use_case : String) : String :=
  match fallback_responses.lookup use_case with
  | some s => s
  | none =>
    "I apologize, but I\x27m having trouble connecting to my knowledge base. Could you please try again in a moment?"

/-- Embedding of `LLMRouter.get_response`: primary provider first, then the
OpenRouter fallback chain, then the canned use-case string.  The sampling
parameters (temperature, max_tokens) have no routing effect and are not
modelled. -/
def get_response (env : Env) (prompt : String) (use_case : String) : String :=
  let r1 := env.groq prompt
  if optTruthy r1 then r1.getD ""
  else
    let r2 := call_openrouter_fallback (env.openrouter prompt)
    if optTruthy r2 then r2.getD ""
    else get_fallback_response use_case

/-! ### JSON-array detection and line scraping used by
`generate_technical_questions` (llm_router.py lines 132-160)

The pattern `\[\s*".*"\s*(,\s*".*"\s*)*\]` (DOTALL) matches somewhere in a
text iff the text contains, in order: `[`, whitespace, `"`, anything, `"`,
whitespace, `]` — the repetition group adds no strings to the language
because the greedy `.*` of the zero-repetition form can absorb any
repetitions.  `containsJsonArray` decides exactly that. -/

/-- Accept `\s*\]` at the head. -/
def wsThenRbracket : List Char → Bool
  | [] => false
  | c :: rest => if c = ']' then true else if isPySpace c then wsThenRbracket rest else false

/-- Accept `.*"\s*\]` at the head (find a later quote closed by `\s*\]`). -/
def quoteThenRbracket : List Char → Bool
  | [] => false
  | c :: rest => (c = '"' && wsThenRbracket rest) || quoteThenRbracket rest

/-- Accept `\s*".*"\s*\]` at the head. -/
def wsThenQuote : List Char → Bool
  | [] => false
  | c :: rest =>
    if c = '"' then quoteThenRbracket rest
    else if isPySpace c then wsThenQuote rest else false

/-- Whether `re.search(r"\[\s*\".*\"\s*(,\s*\".*\"\s*)*\]", s, re.DOTALL)`
finds a match. -/
def containsJsonArray : List Char → Bool
  | [] => false
  | c :: rest => (c = '[' && wsThenQuote rest) || containsJsonArray rest

/-- Remove a leading `[0-9]+[\.\)]\s*` numbering prefix, like
`re.sub(r"^[0-9]+[\.\)]\s*", "", line)`. -/
def stripNumbering (cs : List Char) : List Char :=
  let ds := cs.takeWhile Char.isDigit
  if ds.isEmpty then cs
  else
    match cs.drop ds.length with
    | [] => cs
    | c :: r2 => if c = '.' || c = ')' then r2.dropWhile isPySpace else cs

/-- The line-scraping fallback: split the response into stripped non-empty
lines, drop numbering, keep lines containing a question mark. -/
def scrapeQuestions (response : String) : List String :=
  let lines := ((splitLines response.toList).map pyStrip).filter (fun l => !l.isEmpty)
  ((lines.map stripNumbering).filter (fun l => l.contains '?')).map (fun l => String.mk l)

def difficultyFor (experience_years : Int) : String :=
  if experience_years < 2 then "entry-level"
  else if experience_years < 5 then "intermediate"
  else "advanced"

/-- The question-generation prompt (content is immaterial to every claim;
it is reproduced so that the provider oracles are applied to the faithful
argument). -/
def techQuestionsPrompt (tech_stack : List String) (experience_years : Int) : String :=
  "Generate 3-5 technical interview questions for a candidate with " ++
  toString experience_years ++ " years of experience. Focus on the following technologies: " ++
  String.intercalate ", " tech_stack ++ ". The questions should be " ++
  difficultyFor experience_years ++
  " difficulty and test practical knowledge. Format the output as a JSON array of strings containing only the questions."

/-- The tail of the `try` block: scrape question-mark lines; if still short
of the minimum, one generic question per technology, capped at the
minimum. -/
def scrapeOrGeneric (response : String) (tech_stack : List String) : List String :=
  let questions := scrapeQuestions response
  if MIN_TECHNICAL_QUESTIONS ≤ questions.length then questions.take MAX_TECHNICAL_QUESTIONS
  else
    (tech_stack.take MIN_TECHNICAL_QUESTIONS).map
      (fun tech => "Please explain your experience with " ++ tech ++ "?")

/-- Embedding of `LLMRouter.generate_technical_questions`.  A found
JSON-array candidate is handed to `json.loads` (`env.parseJsonArr`); a
parse exception lands in the `except` branch, which returns the
"Could you describe" generic list; a parsed array shorter than the minimum
falls through to line scraping, as in the source. -/
def generate_technical_questions (env : Env) (tech_stack : List String)
    (experience_years : Int) : List String :=
  let response :=
    get_response env (techQuestionsPrompt tech_stack experience_years) "tech_questions"
  if containsJsonArray response.toList then
    match env.parseJsonArr response with
    | some questions =>
      if MIN_TECHNICAL_QUESTIONS ≤ questions.length then
        questions.take MAX_TECHNICAL_QUESTIONS
      else scrapeOrGeneric response tech_stack
    | none =>
      (tech_stack.take MIN_TECHNICAL_QUESTIONS).map
        (fun tech => "Could you describe your experience with " ++ tech ++ "?")
  else scrapeOrGeneric response tech_stack

/-! ## Technical question generator (src/utils/tech_questions.py) -/

def general_questions : List String :=
  ["Can you describe your experience with programming languages?",
   "What software development methodologies are you familiar with?",
   "How do you approach debugging complex technical issues?",
   "Describe a challenging technical project you worked on recently.",
   "How do you stay updated with industry trends and new technologies?",
   "What tools do you use for version control and why?",
   "How do you ensure code quality and maintainability?",
   "Describe your experience with testing and QA processes.",
   "How do you approach technical documentation?",
   "What\x27s your process for learning a new technology quickly?"]

/-- Embedding of `_generate_general_questions`: a random sample of
`min(MIN_TECHNICAL_QUESTIONS, len(general_questions))` generic questions. -/
def generate_general_questions (env : Env) : List String :=
  env.sample general_questions (min MIN_TECHNICAL_QUESTIONS general_questions.length)

def determine_difficulty (years_experience : Int) : String :=
  if years_experience < 2 then "entry-level"
  else if years_experience < 5 then "intermediate"
  else "advanced"

/-- The per-difficulty question templates (`{tech}` is the format slot). -/
def question_templates (difficulty : String) : List String :=
  if difficulty = "entry-level" then
    ["What are the basic features of {tech}?",
     "Can you explain the main use cases for {tech}?",
     "What are some advantages of using {tech} compared to alternatives?",
     "How would you set up a simple project using {tech}?",
     "What resources did you use to learn {tech}?",
     "Can you describe a simple project you built using {tech}?"]
  else if difficulty = "advanced" then
    ["Can you describe a complex technical challenge you solved using {tech}?",
     "How would you architect a scalable system using {tech}?",
     "What are the internals of {tech} and how does it work under the hood?",
     "How have you extended or customized {tech} for specific requirements?",
     "Can you discuss the tradeoffs involved in different {tech} implementation strategies?",
     "How would you debug a complex issue in a {tech} application?"]
  else
    ["What are some best practices when working with {tech}?",
     "How would you optimize performance in a {tech} application?",
     "Can you explain the architecture of a {tech} application you\x27ve built?",
     "What are some common pitfalls to avoid when using {tech}?",
     "How do you handle error management in {tech}?",
     "How would you implement testing for a {tech} application?"]

/-- `template.format(tech=tech)`. -/
def formatTech (template tech : String) : String :=
  template.replace "{tech}" tech

/-- Pop the head question cached under `key`, returning it and the updated
cache, or `none` when the key is absent or maps to an empty list. -/
def popCache (key : String) :
    List (String × List String) → Option (String × List (String × List String))
  | [] => none
  | (k, qs) :: rest =>
    if k = key then
      match qs with
      | [] => none
      | q :: qrest => some (q, (k, qrest) :: rest)
    else
      (popCache key rest).map (fun p => (p.1, (k, qs) :: p.2))

/-- The loop body of `_generate_fallback_questions`: one question per
selected technology, preferring a cached question, else a random template
instantiated with the technology. -/
def fallbackLoop (env : Env) (templates : List String) (difficulty : String) :
    List String → List (String × List String) → List String
  | [], _cache => []
  | tech :: rest, cache =>
    match popCache (tech ++ "_" ++ difficulty) cache with
    | some (q, cache2) => q :: fallbackLoop env templates difficulty rest cache2
    | none => formatTech (env.choice templates) tech :: fallbackLoop env templates difficulty rest cache

/-- Embedding of `_generate_fallback_questions`: shuffle the stack, keep
`num_questions` technologies, emit one question per technology. -/
def generate_fallback_questions (env : Env) (qtCache : List (String × List String))
    (tech_stack : List String) (difficulty : String) (num_questions : Nat) : List String :=
  let techs_to_use := (env.shuffle tech_stack).take num_questions
  fallbackLoop env (question_templates difficulty) difficulty techs_to_use qtCache

/-- Embedding of `_generate_tech_specific_questions`: try the router; if it
produced at least `num_questions`, truncate; else fall back to templates. -/
def generate_tech_specific_questions (env : Env) (qtCache : List (String × List String))
    (tech_stack : List String) (years_experience : Int) (num_questions : Nat) : List String :=
  let difficulty := determine_difficulty years_experience
  let questions := generate_technical_questions env tech_stack years_experience
  if !questions.isEmpty && num_questions ≤ questions.length then
    questions.take num_questions
  else generate_fallback_questions env qtCache tech_stack difficulty num_questions

/-- Embedding of `TechQuestionGenerator.generate_questions`.  `qtCache` is
the generator's `question_cache`; in the repository `cache_questions` is
never invoked, so every live call receives an empty cache. -/
def generate_questions (env : Env) (qtCache : List (String × List String))
    (tech_stack : List String) (years_experience : Int)
    (num_questions : Option Nat) : List String :=
  if tech_stack.isEmpty then generate_general_questions env
  else
    let n :=
      match num_questions with
      | none => min (max MIN_TECHNICAL_QUESTIONS tech_stack.length) MAX_TECHNICAL_QUESTIONS
      | some k => k
    generate_tech_specific_questions env qtCache tech_stack years_experience n

/-! ## Session store (src/utils/data_handler.py)

One JSON file per session id; the store is the map from session id to the
stored record.  JSON serialization of the candidate record is faithful for
every modelled field type, so a written record is read back unchanged; the
`try/except` around the file write (failure logged and swallowed) and the
missing-file / corrupt-JSON read paths are modelled by explicit flags. -/

def Store : Type := String → Option CandidateData

/-- Embedding of `save_candidate_data`: stamp the record with the current
time, then overwrite `candidate_<session_id>.json`; a failed write (the
swallowed exception branch) leaves the store unchanged. -/
def save_candidate_data (store : Store) (writeOk : Bool) (session_id : String)
    (data : CandidateData) (now : String) : Store :=
  let data2 := { data with timestamp := some now }
  if writeOk then fun k => if k = session_id then some data2 else store k
  else store

/-- Embedding of `load_candidate_data`: `None` for a missing file; a read
failure (corrupt JSON, the swallowed exception branch) also yields `None`. -/
def load_candidate_data (store : Store) (readOk : Bool) (session_id : String) :
    Option CandidateData :=
  match store session_id with
  | none => none
  | some d => if readOk then some d else none

/-! ## Conversation manager (src/utils/conversation.py) -/

def EXIT_KEYWORDS : List String :=
  ["exit", "quit", "end interview", "stop", "bye", "goodbye"]

/-- The exit test of `process_message`:
`any(keyword in user_message.lower() for keyword in EXIT_KEYWORDS)`. -/
def containsExitKeyword (user_message : String) : Bool :=
  EXIT_KEYWORDS.any (fun k => containsSub k.toList (user_message.toList.map Char.toLower))

/-- Embedding of `_update_history`: append the entry, then keep only the
last `MAX_HISTORY_LENGTH * 2` entries. -/
def update_history (history : List HistEntry) (role content : String) : List HistEntry :=
  let h2 := history ++ [⟨role, content⟩]
  if MAX_HISTORY_LENGTH * 2 < h2.length then h2.drop (h2.length - MAX_HISTORY_LENGTH * 2)
  else h2

/-- Embedding of `LLMRouter.preserve_context_across_languages` (called on a
language switch): keep the most recent 10 entries and append a switch
marker. -/
def preserve_context_across_languages (history : List HistEntry) (new_language : String) :
    List HistEntry :=
  if history.isEmpty then history
  else
    (if 10 < history.length then history.drop (history.length - 10) else history) ++
      [⟨"system", "Language switched to " ++ new_language⟩]

/-- The name block of `_extract_multilingual_info` (store a truthy
extraction result into the still-absent field). -/
def exStepName (env : Env) (stage : Nat) (message : String) (d : CandidateData) :
    CandidateData :=
  if stage = stageName ∧ d.name.isNone then
    match env.exName message with
    | some v => if v ≠ "" then { d with name := some v } else d
    | none => d
  else d

/-- The email block of `_extract_multilingual_info`. -/
def exStepEmail (env : Env) (stage : Nat) (message : String) (d : CandidateData) :
    CandidateData :=
  if stage = stageContactInfo ∧ d.email.isNone then
    match env.exEmail message with
    | some v => if v ≠ "" then { d with email := some v } else d
    | none => d
  else d

/-- The phone block of `_extract_multilingual_info`. -/
def exStepPhone (env : Env) (stage : Nat) (message : String) (d : CandidateData) :
    CandidateData :=
  if stage = stageContactInfo ∧ d.phone.isNone then
    match env.exPhone message with
    | some v => if v ≠ "" then { d with phone := some v } else d
    | none => d
  else d

/-- The years-of-experience block of `_extract_multilingual_info` (the
source tests `is not None`, not truthiness, so 0 is stored). -/
def exStepYears (env : Env) (stage : Nat) (message : String) (d : CandidateData) :
    CandidateData :=
  if stage = stageExperience ∧ d.years_experience.isNone then
    match env.exYears message with
    | some v => { d with years_experience := some v }
    | none => d
  else d

/-- The position block of `_extract_multilingual_info`. -/
def exStepPosition (env : Env) (stage : Nat) (message : String) (d : CandidateData) :
    CandidateData :=
  if stage = stagePosition ∧ d.position.isNone then
    match env.exPosition message with
    | some v => if v ≠ "" then { d with position := some v } else d
    | none => d
  else d

/-- The location block of `_extract_multilingual_info`. -/
def exStepLocation (env : Env) (stage : Nat) (message : String) (d : CandidateData) :
    CandidateData :=
  if stage = stageLocation ∧ d.location.isNone then
    match env.exLocation message with
    | some v => if v ≠ "" then { d with location := some v } else d
    | none => d
  else d

/-- The tech-stack block of `_extract_multilingual_info` (the concrete
vocabulary matcher; its result is non-empty by construction). -/
def exStepTech (stage : Nat) (message : String) (d : CandidateData) : CandidateData :=
  if stage = stageTechStack ∧ d.tech_stack.isNone then
    match extract_tech_stack message with
    | some l => { d with tech_stack := some l }
    | none => d
  else d

/-- Embedding of `_extract_multilingual_info`: for each stage-matched field
that is still absent, run its extractor and store a truthy result.  The
stage argument is the manager's `self.stage` at extraction time (which can
lag the derived stage by one turn, as in the source). -/
def extract_multilingual_info (env : Env) (stage : Nat) (message : String)
    (d : CandidateData) : CandidateData :=
  exStepTech stage message
    (exStepLocation env stage message
      (exStepPosition env stage message
        (exStepYears env stage message
          (exStepPhone env stage message
            (exStepEmail env stage message
              (exStepName env stage message d))))))

/-- The in-memory state of one `ConversationManager`. -/
structure SessionState where
  data : CandidateData
  stage : Nat
  history : List HistEntry
  current_language : String
  technical_questions : List String
  qcache : List ((List String × Int) × List String)

/-- Assign `self.history` and mirror it into
`candidate_data["conversation_history"]` (as `_update_history` does). -/
def setHistory (s : SessionState) (h : List HistEntry) : SessionState :=
  { s with history := h, data := { s.data with conversation_history := h } }

/-- Look up the performance-manager response cache for a technical-question
key.  The Python key is an md5 of the (tech_stack, years_experience,
user_id) context, which within one session is determined by the pair
modelled here; a present entry is returned only when inside its TTL
(`env.cacheFresh`). -/
def lookupQCache (env : Env) (key : List String × Int)
    (qcache : List ((List String × Int) × List String)) : Option (List String) :=
  match qcache.lookup key with
  | some v => if env.cacheFresh then some v else none
  | none => none

/-- Embedding of `ConversationManager._generate_technical_questions`: take
the cached question list if fresh, else generate (with the generator's own
`question_cache`, which the repository never populates) and cache the
result; mirror the list into the candidate record.  The write-through to
the on-disk store (`store_technical_questions`) does not touch the
in-memory record and is covered by the session-store embedding. -/
def conv_generate_technical_questions (env : Env) (s : SessionState) : SessionState :=
  let ts := s.data.tech_stack.getD []
  let years := s.data.years_experience.getD 0
  let key := (ts, years)
  match lookupQCache env key s.qcache with
  | some cached =>
    { s with technical_questions := cached,
             data := { s.data with technical_questions := some cached } }
  | none =>
    let qs := generate_questions env [] ts years none
    { s with technical_questions := qs,
             qcache := (key, qs) :: s.qcache,
             data := { s.data with technical_questions := some qs } }

/-- Embedding of `_handle_technical_questions`. -/
def handle_technical_questions (env : Env) (s : SessionState) (user_message : String) :
    SessionState × String :=
  let s :=
    if s.technical_questions.isEmpty ∧ s.data.technical_questions.isNone then
      conv_generate_technical_questions env s
    else s
  let s :=
    if s.technical_questions.isEmpty ∧ s.data.technical_questions.isSome then
      { s with technical_questions := s.data.technical_questions.getD [] }
    else s
  let s :=
    if s.data.technical_answers.isNone then
      { s with data := { s.data with technical_answers := some [] } }
    else s
  let answers := s.data.technical_answers.getD [] ++ [user_message]
  let s := { s with data := { s.data with technical_answers := some answers } }
  let current_question_idx : Int := (answers.length : Int) - 1
  if current_question_idx < (s.technical_questions.length : Int) - 1 then
    (s, "Thank you for your answer. Here\x27s the next question:\n\n" ++
        s.technical_questions.getD answers.length "")
  else
    ({ s with stage := stageFarewell },
     "Thank you for answering all the technical questions. Your responses have been recorded.")

/-- The tail of `_handle_tech_stack_collection` reached when no question
set was produced: re-prompt for the stack when it is still absent, else
the fixed hand-off line. -/
def tsTail (env : Env) (s : SessionState) : SessionState × String :=
  if s.data.tech_stack.isNone then (s, env.reply 61)
  else (s, "Thank you for the information. Let me ask you some technical questions now.")

/-- The tech-stack fall-through tail leaves the state unchanged. -/
theorem tsTail_fst (env : Env) (s : SessionState) : (tsTail env s).1 = s := by
  unfold tsTail
  split <;> rfl

/-- The in-handler extraction retry at the top of
`_handle_tech_stack_collection`. -/
def tsExtractStep (s : SessionState) (user_message : String) : SessionState :=
  if s.data.tech_stack.isNone then
    match extract_tech_stack user_message with
    | some l => { s with data := { s.data with tech_stack := some l } }
    | none => s
  else s

/-- Embedding of `_handle_tech_stack_collection`.  The transition prompt
and tech-stack summary of the success reply, and the re-prompt replies,
are LLM/prompt text with no effect on state and are supplied by
`env.reply`. -/
def handle_tech_stack_collection (env : Env) (s : SessionState) (user_message : String) :
    SessionState × String :=
  let s := tsExtractStep s user_message
  if s.data.tech_stack.isSome ∧ ¬(s.data.tech_stack.getD []).isEmpty then
    let s := conv_generate_technical_questions env { s with stage := stageTechnicalQuestions }
    if ¬s.technical_questions.isEmpty then
      ({ s with data := { s.data with technical_answers := some [] } },
       env.reply 60 ++ "\n\nLet\x27s start with the first technical question:\n\n" ++
         s.technical_questions.headD "")
    else tsTail env s
  else tsTail env s

/-- The terminal completion message (`_get_completion_message`), localized;
only the default localization is reproduced, the others being immaterial
string content. -/
def get_completion_message (_language : String) : String :=
  "Thank you for completing the initial interview process. The TalentScout team will be in touch if your profile matches their requirements."

/-- Embedding of `_generate_response`: recompute the stage from the record,
then dispatch to the stage handler.  Handlers for the plain collection
stages only advance `self.stage` and produce LLM text; the farewell
handler's reply is followed by the caller setting `conversation_complete`
and the stage to complete (lines 671-674). -/
def generate_response (env : Env) (s : SessionState) (user_message : String) :
    SessionState × String :=
  let s := { s with stage := determine_current_stage s.data }
  if s.stage = stageGreeting then ({ s with stage := stageName }, env.reply 0)
  else if s.stage = stageName then
    if s.data.name.isSome then ({ s with stage := stageContactInfo }, env.reply 1)
    else (s, env.reply 11)
  else if s.stage = stageContactInfo then
    if s.data.email.isSome ∧ s.data.phone.isSome then
      ({ s with stage := stageExperience }, env.reply 2)
    else (s, env.reply 12)
  else if s.stage = stageExperience then
    if s.data.years_experience.isSome then ({ s with stage := stagePosition }, env.reply 3)
    else (s, env.reply 13)
  else if s.stage = stagePosition then
    if s.data.position.isSome then ({ s with stage := stageLocation }, env.reply 4)
    else (s, env.reply 14)
  else if s.stage = stageLocation then
    if s.data.location.isSome then ({ s with stage := stageTechStack }, env.reply 5)
    else (s, env.reply 15)
  else if s.stage = stageTechStack then handle_tech_stack_collection env s user_message
  else if s.stage = stageTechnicalQuestions then handle_technical_questions env s user_message
  else if s.stage = stageFarewell then
    ({ s with stage := stageComplete,
              data := { s.data with conversation_complete := some true } },
     env.reply 8)
  else (s, get_completion_message s.current_language)

/-- Embedding of `_handle_exit`: mark the conversation complete, move to
the terminal stage, and return the fixed farewell (the save it performs is
the session-store write modelled separately). -/
def handle_exit (s : SessionState) : SessionState × String :=
  ({ s with stage := stageComplete,
            data := { s.data with conversation_complete := some true } },
   "Thank you for your time. The interview has been concluded. The TalentScout team will review your information and will be in touch if there\x27s a match for your profile. Have a great day!")

/-- The language-switch block at the top of `process_message`: an automatic
switch updates the active language and compacts the history; a
medium-confidence suggestion records a `language_suggestion` key. -/
def pm_lang (env : Env) (s : SessionState) (user_message : String) : SessionState :=
  let sw := env.autoSwitch user_message s.current_language
  if sw.2.1 then
    { s with current_language := sw.1,
             data := { s.data with language := some sw.1 },
             history := preserve_context_across_languages s.history sw.1 }
  else if sw.2.2 ≠ "" then { s with data := { s.data with extra := true } }
  else s

/-- Record one history entry (user or assistant) through `_update_history`. -/
def pm_hist (s : SessionState) (role content : String) : SessionState :=
  setHistory s (update_history s.history role content)

/-- The extraction step of `process_message` (uses the lagging
`self.stage`). -/
def pm_extract (env : Env) (s : SessionState) (user_message : String) : SessionState :=
  { s with data := extract_multilingual_info env s.stage user_message s.data }

/-- The sentiment-logging step: when the analyzer is available, a
`sentiment_history` entry is appended (a non-modelled key). -/
def pm_sentiment (env : Env) (s : SessionState) : SessionState :=
  if env.sentimentOn then { s with data := { s.data with extra := true } } else s

/-- Embedding of `process_message`: exit-keyword short-circuit; language
auto-switch; user history entry; field extraction; sentiment logging;
stage dispatch; assistant history entry.  The personalization recording
and the end-of-turn save touch no modelled in-memory state. -/
def process_message (env : Env) (s : SessionState) (user_message : String) :
    SessionState × String :=
  if containsExitKeyword user_message then handle_exit s
  else
    let sw := env.autoSwitch user_message s.current_language
    let r := generate_response env
      (pm_sentiment env (pm_extract env (pm_hist (pm_lang env s user_message) "user" user_message) user_message))
      user_message
    let response := if sw.2.1 ∧ sw.2.2 ≠ "" then sw.2.2 ++ "\n\n" ++ r.2 else r.2
    (pm_hist r.1 "assistant" response, response)

/-- A fresh session: empty record (no stored session for the id), greeting
stage, empty history and caches. -/
def initState : SessionState :=
  { data := {}, stage := stageGreeting, history := [], current_language := "en",
    technical_questions := [], qcache := [] }

/-- A whole session: fold `process_message` over the turns, each turn
carrying its own environment (provider outcomes, random draws, ...). -/
def runSession (s : SessionState) : List (String × Env) → SessionState
  | [] => s
  | (msg, env) :: rest => runSession (process_message env s msg).1 rest

/-! ## Basic lemmas about the embedded operations -/

/-- A successful tech-stack extraction is never the empty list. -/
theorem extract_tech_stack_ne_nil {message : String} {l : List String}
    (h : extract_tech_stack message = some l) : l ≠ [] := by
  simp only [extract_tech_stack] at h
  split at h
  · exact absurd h (by simp)
  · next hne =>
    cases h
    simpa [List.isEmpty_iff] using hne

/-- The fallback template loop emits exactly one question per selected
technology. -/
theorem fallbackLoop_length (env : Env) (templates : List String) (difficulty : String) :
    ∀ (techs : List String) (cache : List (String × List String)),
      (fallbackLoop env templates difficulty techs cache).length = techs.length := by
  intro techs
  induction techs with
  | nil => intro cache; simp [fallbackLoop]
  | cons tech rest ih =>
    intro cache
    unfold fallbackLoop
    cases h : popCache (tech ++ "_" ++ difficulty) cache with
    | none => simp [ih]
    | some p => simp [ih]

/-- Under the shuffle contract, the template fallback emits
`min num_questions (len tech_stack)` questions. -/
theorem generate_fallback_questions_length {env : Env} (hwf : EnvWF env)
    (qtCache : List (String × List String)) (tech_stack : List String)
    (difficulty : String) (n : Nat) :
    (generate_fallback_questions env qtCache tech_stack difficulty n).length =
      min n tech_stack.length := by
  unfold generate_fallback_questions
  rw [fallbackLoop_length, List.length_take, hwf tech_stack]

/-- Under the shuffle contract, the question generator never returns an
empty list for a non-empty tech stack (with the default question count). -/
theorem generate_questions_ne_nil {env : Env} (hwf : EnvWF env)
    (qtCache : List (String × List String)) {tech_stack : List String}
    (hts : tech_stack ≠ []) (years : Int) :
    generate_questions env qtCache tech_stack years none ≠ [] := by
  have hne : tech_stack.isEmpty = false := by simpa [List.isEmpty_iff] using hts
  have hL : 1 ≤ tech_stack.length := by
    cases tech_stack with
    | nil => exact absurd rfl hts
    | cons a as => simp
  have hn1 : 1 ≤ min (max MIN_TECHNICAL_QUESTIONS tech_stack.length) MAX_TECHNICAL_QUESTIONS := by
    simp only [MIN_TECHNICAL_QUESTIONS, MAX_TECHNICAL_QUESTIONS]
    omega
  simp only [generate_questions, hne, Bool.false_eq_true, if_false,
    generate_tech_specific_questions]
  split
  · next hcond =>
    rw [Bool.and_eq_true] at hcond
    intro htake
    rcases List.take_eq_nil_iff.mp htake with h0 | h0
    · omega
    · simp [h0] at hcond
  · intro hempty
    have hlen := generate_fallback_questions_length hwf qtCache tech_stack
      (determine_difficulty years)
      (min (max MIN_TECHNICAL_QUESTIONS tech_stack.length) MAX_TECHNICAL_QUESTIONS)
    rw [hempty] at hlen
    simp only [List.length_nil] at hlen
    omega

/-! ### What one extraction pass can do to the record -/

/-- Relation between a record and its state after an extraction pass: the
Q&A lists, termination flag, history and bookkeeping keys are untouched;
the seven extracted fields are only ever filled in, never changed; a
freshly filled tech stack is non-empty. -/
def ExtRel (d d' : CandidateData) : Prop :=
  d'.technical_questions = d.technical_questions ∧
  d'.technical_answers = d.technical_answers ∧
  d'.conversation_complete = d.conversation_complete ∧
  d'.conversation_history = d.conversation_history ∧
  d'.language = d.language ∧ d'.extra = d.extra ∧ d'.timestamp = d.timestamp ∧
  (∀ v, d.name = some v → d'.name = some v) ∧
  (∀ v, d.email = some v → d'.email = some v) ∧
  (∀ v, d.phone = some v → d'.phone = some v) ∧
  (∀ v, d.years_experience = some v → d'.years_experience = some v) ∧
  (∀ v, d.position = some v → d'.position = some v) ∧
  (∀ v, d.location = some v → d'.location = some v) ∧
  (∀ l, d.tech_stack = some l → d'.tech_stack = some l) ∧
  (∀ l, d'.tech_stack = some l → d.tech_stack = some l ∨ l ≠ [])

theorem extRel_refl (d : CandidateData) : ExtRel d d := by
  unfold ExtRel
  refine ⟨rfl, rfl, rfl, rfl, rfl, rfl, rfl, ?_, ?_, ?_, ?_, ?_, ?_, ?_, ?_⟩ <;>
    intro v h <;> first | exact h | exact Or.inl h

theorem extRel_trans {a b c : CandidateData} (h1 : ExtRel a b) (h2 : ExtRel b c) :
    ExtRel a c := by
  obtain ⟨q1, a1, c1, h1', l1, e1, t1, n1, m1, p1, y1, o1, loc1, ts1, tn1⟩ := h1
  obtain ⟨q2, a2, c2, h2', l2, e2, t2, n2, m2, p2, y2, o2, loc2, ts2, tn2⟩ := h2
  refine ⟨q2.trans q1, a2.trans a1, c2.trans c1, h2'.trans h1', l2.trans l1,
    e2.trans e1, t2.trans t1,
    fun v h => n2 v (n1 v h), fun v h => m2 v (m1 v h), fun v h => p2 v (p1 v h),
    fun v h => y2 v (y1 v h), fun v h => o2 v (o1 v h), fun v h => loc2 v (loc1 v h),
    fun l h => ts2 l (ts1 l h), ?_⟩
  intro l h
  rcases tn2 l h with h' | h'
  · exact tn1 l h'
  · exact Or.inr h'

theorem exStepName_rel (env : Env) (stage : Nat) (msg : String) (d : CandidateData) :
    ExtRel d (exStepName env stage msg d) := by
  unfold exStepName
  split
  · next hg =>
    have hnone : d.name = none := Option.isNone_iff_eq_none.mp hg.2
    split
    · split
      · refine ⟨rfl, rfl, rfl, rfl, rfl, rfl, rfl, ?_, ?_, ?_, ?_, ?_, ?_, ?_, ?_⟩ <;>
          intro w h <;> first
            | exact h | exact Or.inl h | exact absurd h (by simp [hnone])
      · exact extRel_refl d
    · exact extRel_refl d
  · exact extRel_refl d

theorem exStepEmail_rel (env : Env) (stage : Nat) (msg : String) (d : CandidateData) :
    ExtRel d (exStepEmail env stage msg d) := by
  unfold exStepEmail
  split
  · next hg =>
    have hnone : d.email = none := Option.isNone_iff_eq_none.mp hg.2
    split
    · split
      · refine ⟨rfl, rfl, rfl, rfl, rfl, rfl, rfl, ?_, ?_, ?_, ?_, ?_, ?_, ?_, ?_⟩ <;>
          intro w h <;> first
            | exact h | exact Or.inl h | exact absurd h (by simp [hnone])
      · exact extRel_refl d
    · exact extRel_refl d
  · exact extRel_refl d

theorem exStepPhone_rel (env : Env) (stage : Nat) (msg : String) (d : CandidateData) :
    ExtRel d (exStepPhone env stage msg d) := by
  unfold exStepPhone
  split
  · next hg =>
    have hnone : d.phone = none := Option.isNone_iff_eq_none.mp hg.2
    split
    · split
      · refine ⟨rfl, rfl, rfl, rfl, rfl, rfl, rfl, ?_, ?_, ?_, ?_, ?_, ?_, ?_, ?_⟩ <;>
          intro w h <;> first
            | exact h | exact Or.inl h | exact absurd h (by simp [hnone])
      · exact extRel_refl d
    · exact extRel_refl d
  · exact extRel_refl d

theorem exStepYears_rel (env : Env) (stage : Nat) (msg : String) (d : CandidateData) :
    ExtRel d (exStepYears env stage msg d) := by
  unfold exStepYears
  split
  · next hg =>
    have hnone : d.years_experience = none := Option.isNone_iff_eq_none.mp hg.2
    split
    · refine ⟨rfl, rfl, rfl, rfl, rfl, rfl, rfl, ?_, ?_, ?_, ?_, ?_, ?_, ?_, ?_⟩ <;>
        intro w h <;> first
          | exact h | exact Or.inl h | exact absurd h (by simp [hnone])
    · exact extRel_refl d
  · exact extRel_refl d

theorem exStepPosition_rel (env : Env) (stage : Nat) (msg : String) (d : CandidateData) :
    ExtRel d (exStepPosition env stage msg d) := by
  unfold exStepPosition
  split
  · next hg =>
    have hnone : d.position = none := Option.isNone_iff_eq_none.mp hg.2
    split
    · split
      · refine ⟨rfl, rfl, rfl, rfl, rfl, rfl, rfl, ?_, ?_, ?_, ?_, ?_, ?_, ?_, ?_⟩ <;>
          intro w h <;> first
            | exact h | exact Or.inl h | exact absurd h (by simp [hnone])
      · exact extRel_refl d
    · exact extRel_refl d
  · exact extRel_refl d

theorem exStepLocation_rel (env : Env) (stage : Nat) (msg : String) (d : CandidateData) :
    ExtRel d (exStepLocation env stage msg d) := by
  unfold exStepLocation
  split
  · next hg =>
    have hnone : d.location = none := Option.isNone_iff_eq_none.mp hg.2
    split
    · split
      · refine ⟨rfl, rfl, rfl, rfl, rfl, rfl, rfl, ?_, ?_, ?_, ?_, ?_, ?_, ?_, ?_⟩ <;>
          intro w h <;> first
            | exact h | exact Or.inl h | exact absurd h (by simp [hnone])
      · exact extRel_refl d
    · exact extRel_refl d
  · exact extRel_refl d

theorem exStepTech_rel (stage : Nat) (msg : String) (d : CandidateData) :
    ExtRel d (exStepTech stage msg d) := by
  unfold exStepTech
  split
  · next hg =>
    have hnone : d.tech_stack = none := Option.isNone_iff_eq_none.mp hg.2
    split
    · next l heq =>
      have hne : l ≠ [] := extract_tech_stack_ne_nil heq
      refine ⟨rfl, rfl, rfl, rfl, rfl, rfl, rfl, ?_, ?_, ?_, ?_, ?_, ?_, ?_, ?_⟩ <;>
        intro w h
      case _ => exact h
      case _ => exact h
      case _ => exact h
      case _ => exact h
      case _ => exact h
      case _ => exact h
      case _ => exact absurd h (by simp [hnone])
      case _ =>
        right
        have hw : some l = some w := h
        cases hw
        exact hne
    · exact extRel_refl d
  · exact extRel_refl d

/-- An extraction pass relates a record to its update. -/
theorem extract_rel (env : Env) (stage : Nat) (msg : String) (d : CandidateData) :
    ExtRel d (extract_multilingual_info env stage msg d) := by
  unfold extract_multilingual_info
  exact extRel_trans (extRel_trans (extRel_trans (extRel_trans (extRel_trans
    (extRel_trans (exStepName_rel env stage msg d) (exStepEmail_rel env stage msg _))
    (exStepPhone_rel env stage msg _)) (exStepYears_rel env stage msg _))
    (exStepPosition_rel env stage msg _)) (exStepLocation_rel env stage msg _))
    (exStepTech_rel stage msg _)

/-! ### The cached question generation step -/

/-- A successful association-list lookup is a member. -/
theorem lookup_mem {α β : Type} [BEq α] [LawfulBEq α] {l : List (α × β)} {k : α} {v : β}
    (h : l.lookup k = some v) : (k, v) ∈ l := by
  induction l with
  | nil => simp [List.lookup] at h
  | cons p rest ih =>
    rw [List.lookup] at h
    split at h
    · next heq =>
      cases h
      have : k = p.1 := by
        have := eq_of_beq heq
        exact this
      cases p
      simp_all
    · simp [ih h]

/-- What `_generate_technical_questions` does to the session when the
record carries a non-empty tech stack: the in-memory and stored question
lists are set to one and the same non-empty list, the response cache still
holds only non-empty values, and nothing else changes. -/
theorem conv_gen_spec {env : Env} {s : SessionState} (hwf : EnvWF env)
    (hcache : ∀ k v, (k, v) ∈ s.qcache → v ≠ [])
    (hts : s.data.tech_stack.getD [] ≠ []) :
    ∃ qs qc, qs ≠ [] ∧
      conv_generate_technical_questions env s =
        { s with technical_questions := qs, qcache := qc,
                 data := { s.data with technical_questions := some qs } } ∧
      (∀ k v, (k, v) ∈ qc → v ≠ []) := by
  simp only [conv_generate_technical_questions]
  cases hl : lookupQCache env
      (s.data.tech_stack.getD [], s.data.years_experience.getD 0) s.qcache with
  | some cached =>
    refine ⟨cached, s.qcache, ?_, rfl, hcache⟩
    unfold lookupQCache at hl
    cases hll : s.qcache.lookup
        (s.data.tech_stack.getD [], s.data.years_experience.getD 0) with
    | none => rw [hll] at hl; exact absurd hl (by simp)
    | some v =>
      rw [hll] at hl
      dsimp only at hl
      by_cases hf : env.cacheFresh
      · rw [if_pos hf] at hl
        cases hl
        exact hcache _ _ (lookup_mem hll)
      · rw [if_neg hf] at hl
        exact absurd hl (by simp)
  | none =>
    refine ⟨_, _, generate_questions_ne_nil hwf [] hts _, rfl, ?_⟩
    intro k v hm
    rcases List.mem_cons.mp hm with h | h
    · cases h
      exact generate_questions_ne_nil hwf [] hts _
    · exact hcache k v h

/-! ### Facts extracted from the derived stage -/

set_option maxHeartbeats 1000000 in
/-- Reaching the tech-stack stage means every earlier field is present and
the tech stack itself is still absent. -/
theorem stage6_fields {d : CandidateData} (h : determine_current_stage d = stageTechStack) :
    d.name.isSome ∧ d.email.isSome ∧ d.phone.isSome ∧ d.years_experience.isSome ∧
    d.position.isSome ∧ d.location.isSome ∧ d.tech_stack.isNone := by
  unfold determine_current_stage at h
  split_ifs at h
  all_goals
    simp_all [stageGreeting, stageName, stageContactInfo, stageExperience, stagePosition,
      stageLocation, stageTechStack, stageTechnicalQuestions, stageFarewell, stageComplete,
      Option.isSome_iff_ne_none, Option.isNone_iff_eq_none]

set_option maxHeartbeats 1000000 in
/-- Reaching the Q&A stage means every collected field is present and
either the question list is absent, or the answers key is absent, or the
answers are strictly shorter than the questions. -/
theorem stage7_facts {d : CandidateData}
    (h : determine_current_stage d = stageTechnicalQuestions) :
    (d.name.isSome ∧ d.email.isSome ∧ d.phone.isSome ∧ d.years_experience.isSome ∧
     d.position.isSome ∧ d.location.isSome ∧ d.tech_stack.isSome) ∧
    (d.technical_questions.isNone ∨ d.technical_answers.isNone ∨ ansLen d < qLen d) := by
  unfold determine_current_stage at h
  split_ifs at h
  all_goals
    simp_all [stageGreeting, stageName, stageContactInfo, stageExperience, stagePosition,
      stageLocation, stageTechStack, stageTechnicalQuestions, stageFarewell, stageComplete,
      ansLen, qLen, Option.isSome_iff_ne_none, Option.isNone_iff_eq_none]

/-! ## The session invariant (claim C1)

`Inv` is the inductive invariant of a session: the answers never outnumber
the questions; a stored tech stack, and a stored question list, are
non-empty; answers exist only once questions do; the manager's in-memory
question list mirrors the stored one; the response cache holds only
non-empty question lists; and a stored question list implies every
collected field is present. -/
structure Inv (s : SessionState) : Prop where
  hle : ansLen s.data ≤ qLen s.data
  hts : ∀ l, s.data.tech_stack = some l → l ≠ []
  hq : ∀ qs, s.data.technical_questions = some qs → qs ≠ []
  ha : s.data.technical_answers.isSome → s.data.technical_questions.isSome
  hsync : s.data.technical_questions.getD [] = s.technical_questions
  hcache : ∀ k v, (k, v) ∈ s.qcache → v ≠ []
  hfields : s.data.technical_questions.isSome →
    s.data.name.isSome ∧ s.data.email.isSome ∧ s.data.phone.isSome ∧
    s.data.years_experience.isSome ∧ s.data.position.isSome ∧
    s.data.location.isSome ∧ s.data.tech_stack.isSome

/-- Transport of the invariant along a step that does not touch the Q&A
data, may fill in collected fields, and may only set a non-empty tech
stack. -/
theorem inv_transport {s s' : SessionState} (hInv : Inv s)
    (hq' : s'.data.technical_questions = s.data.technical_questions)
    (ha' : s'.data.technical_answers = s.data.technical_answers)
    (hm' : s'.technical_questions = s.technical_questions)
    (hc' : s'.qcache = s.qcache)
    (hts1 : s.data.tech_stack.isSome → s'.data.tech_stack.isSome)
    (hts2 : ∀ l, s'.data.tech_stack = some l → s.data.tech_stack = some l ∨ l ≠ [])
    (hn : s.data.name.isSome → s'.data.name.isSome)
    (he : s.data.email.isSome → s'.data.email.isSome)
    (hp : s.data.phone.isSome → s'.data.phone.isSome)
    (hy : s.data.years_experience.isSome → s'.data.years_experience.isSome)
    (hpo : s.data.position.isSome → s'.data.position.isSome)
    (hlo : s.data.location.isSome → s'.data.location.isSome) : Inv s' := by
  constructor
  · unfold ansLen qLen
    rw [hq', ha']
    exact hInv.hle
  · intro l hl
    rcases hts2 l hl with h | h
    · exact hInv.hts l h
    · exact h
  · intro qs hqs
    exact hInv.hq qs (hq'.symm.trans hqs)
  · intro hsome
    rw [hq']
    rw [ha'] at hsome
    exact hInv.ha hsome
  · rw [hq', hm']
    exact hInv.hsync
  · intro k v hm
    rw [hc'] at hm
    exact hInv.hcache k v hm
  · intro hsome
    rw [hq'] at hsome
    obtain ⟨h1, h2, h3, h4, h5, h6, h7⟩ := hInv.hfields hsome
    exact ⟨hn h1, he h2, hp h3, hy h4, hpo h5, hlo h6, hts1 h7⟩

theorem inv_stageSet {s : SessionState} (hInv : Inv s) (n : Nat) :
    Inv { s with stage := n } :=
  ⟨hInv.hle, hInv.hts, hInv.hq, hInv.ha, hInv.hsync, hInv.hcache, hInv.hfields⟩

theorem inv_handle_exit {s : SessionState} (hInv : Inv s) : Inv (handle_exit s).1 :=
  ⟨hInv.hle, hInv.hts, hInv.hq, hInv.ha, hInv.hsync, hInv.hcache, hInv.hfields⟩

theorem inv_pm_lang {env : Env} {s : SessionState} {msg : String} (hInv : Inv s) :
    Inv (pm_lang env s msg) := by
  simp only [pm_lang]
  split
  · exact ⟨hInv.hle, hInv.hts, hInv.hq, hInv.ha, hInv.hsync, hInv.hcache, hInv.hfields⟩
  · split
    · exact ⟨hInv.hle, hInv.hts, hInv.hq, hInv.ha, hInv.hsync, hInv.hcache, hInv.hfields⟩
    · exact hInv

theorem inv_pm_hist {s : SessionState} {role content : String} (hInv : Inv s) :
    Inv (pm_hist s role content) :=
  ⟨hInv.hle, hInv.hts, hInv.hq, hInv.ha, hInv.hsync, hInv.hcache, hInv.hfields⟩

theorem inv_pm_sentiment {env : Env} {s : SessionState} (hInv : Inv s) :
    Inv (pm_sentiment env s) := by
  unfold pm_sentiment
  split
  · exact ⟨hInv.hle, hInv.hts, hInv.hq, hInv.ha, hInv.hsync, hInv.hcache, hInv.hfields⟩
  · exact hInv

theorem inv_pm_extract {env : Env} {s : SessionState} {msg : String} (hInv : Inv s) :
    Inv (pm_extract env s msg) := by
  obtain ⟨hq', ha', _, _, _, _, _, hn, he, hp, hy, hpo, hlo, htsm, htsn⟩ :=
    extract_rel env s.stage msg s.data
  refine inv_transport hInv hq' ha' rfl rfl ?_ htsn ?_ ?_ ?_ ?_ ?_ ?_ <;>
    intro hsome <;> rcases Option.isSome_iff_exists.mp hsome with ⟨v, hv⟩
  · exact Option.isSome_iff_exists.mpr ⟨v, htsm v hv⟩
  · exact Option.isSome_iff_exists.mpr ⟨v, hn v hv⟩
  · exact Option.isSome_iff_exists.mpr ⟨v, he v hv⟩
  · exact Option.isSome_iff_exists.mpr ⟨v, hp v hv⟩
  · exact Option.isSome_iff_exists.mpr ⟨v, hy v hv⟩
  · exact Option.isSome_iff_exists.mpr ⟨v, hpo v hv⟩
  · exact Option.isSome_iff_exists.mpr ⟨v, hlo v hv⟩

/-- The invariant is preserved by the tech-stack collection handler when
the derived stage is `tech_stack`. -/
theorem inv_handle_ts {env : Env} {s : SessionState} {msg : String} (hwf : EnvWF env)
    (hInv : Inv s) (h6 : determine_current_stage s.data = stageTechStack) :
    Inv (handle_tech_stack_collection env s msg).1 := by
  obtain ⟨hn6, he6, hp6, hy6, hpo6, hlo6, hts6⟩ := stage6_fields h6
  simp only [handle_tech_stack_collection]
  cases hex : extract_tech_stack msg with
  | none =>
    have hstep : tsExtractStep s msg = s := by
      unfold tsExtractStep
      rw [if_pos hts6, hex]
    rw [hstep]
    have hnotsome : ¬(s.data.tech_stack.isSome = true ∧
        ¬(s.data.tech_stack.getD []).isEmpty = true) := by
      intro hcontra
      rw [Option.isNone_iff_eq_none] at hts6
      simp [hts6] at hcontra
    rw [if_neg hnotsome, tsTail_fst]
    exact hInv
  | some l =>
    have hlne : l ≠ [] := extract_tech_stack_ne_nil hex
    have hstep : tsExtractStep s msg = { s with data := { s.data with tech_stack := some l } } := by
      unfold tsExtractStep
      rw [if_pos hts6, hex]
    rw [hstep]
    have hInv1 : Inv { s with data := { s.data with tech_stack := some l } } := by
      refine inv_transport hInv rfl rfl rfl rfl ?_ ?_ ?_ ?_ ?_ ?_ ?_ ?_ <;>
        first
        | exact fun h => h
        | · intro l' hl'
            have hx : some l = some l' := hl'
            cases hx
            exact Or.inr hlne
        | exact fun _ => by simp
    have hcond : ({ s with data := { s.data with tech_stack := some l } } :
        SessionState).data.tech_stack.isSome = true ∧
        ¬(({ s with data := { s.data with tech_stack := some l } } :
          SessionState).data.tech_stack.getD []).isEmpty = true := by
      constructor
      · rfl
      · simpa [List.isEmpty_iff] using hlne
    rw [if_pos hcond]
    obtain ⟨qs, qc, hqs, heq, hqc⟩ :=
      conv_gen_spec (s := { ({ s with data := { s.data with tech_stack := some l } } :
          SessionState) with stage := stageTechnicalQuestions }) hwf hInv1.hcache
        (by simpa [List.isEmpty_iff] using hlne)
    rw [heq]
    rw [if_pos (by simpa [List.isEmpty_iff] using hqs)]
    constructor
    · simp [ansLen, qLen]
    · intro l' hl'
      have hx : some l = some l' := hl'
      cases hx
      exact hlne
    · intro qs' hqs'
      have hx : some qs = some qs' := hqs'
      cases hx
      exact hqs
    · intro hx
      rfl
    · rfl
    · exact hqc
    · intro hx
      exact ⟨hn6, he6, hp6, hy6, hpo6, hlo6, rfl⟩

/-- The invariant is preserved by the Q&A handler when the derived stage is
`technical_questions`. -/
theorem inv_handle_tq {env : Env} {s : SessionState} {msg : String} (hwf : EnvWF env)
    (hInv : Inv s) (h7 : determine_current_stage s.data = stageTechnicalQuestions) :
    Inv (handle_technical_questions env s msg).1 := by
  obtain ⟨⟨hn7, he7, hp7, hy7, hpo7, hlo7, hts7⟩, hdisj⟩ := stage7_facts h7
  rcases Option.isSome_iff_exists.mp hts7 with ⟨ts, hts_eq⟩
  have htsne : ts ≠ [] := hInv.hts ts hts_eq
  have htsgetD : s.data.tech_stack.getD [] ≠ [] := by rw [hts_eq]; exact htsne
  simp only [handle_technical_questions]
  cases hqd : s.data.technical_questions with
  | none =>
    have hmem : s.technical_questions = [] := by
      have hx := hInv.hsync
      rw [hqd] at hx
      exact hx.symm
    have hansnone : s.data.technical_answers = none := by
      cases hha : s.data.technical_answers with
      | none => rfl
      | some a =>
        have hx := hInv.ha (by simp [hha])
        rw [hqd] at hx
        simp at hx
    obtain ⟨qs, qc, hqs, heq, hqc⟩ := conv_gen_spec hwf hInv.hcache htsgetD
    rw [heq]
    split
    · split
      · next hB =>
        exfalso
        have h1 := hB.1
        simp [List.isEmpty_iff] at h1
        exact hqs h1
      · split
        · have h0 : 0 < qs.length := List.length_pos.mpr hqs
          split
          all_goals
            refine ⟨?_, ?_, ?_, ?_, ?_, ?_, ?_⟩
            · simp [ansLen, qLen, hansnone]
              omega
            · intro l hl
              exact hInv.hts l hl
            · intro qs' hqs'
              have hqq : some qs = some qs' := hqs'
              cases hqq
              exact hqs
            · intro hx
              simp
            · rfl
            · exact hqc
            · intro hx
              exact ⟨hn7, he7, hp7, hy7, hpo7, hlo7, hts7⟩
        · next hC =>
          exfalso
          simp [hansnone] at hC
    · next hA =>
      exfalso
      exact hA ⟨by simp [hmem], by simp⟩
  | some qs0 =>
    have hqs0 : qs0 ≠ [] := hInv.hq qs0 hqd
    have hmem : s.technical_questions = qs0 := by
      have hx := hInv.hsync
      rw [hqd] at hx
      exact hx.symm
    have hlt : s.data.technical_answers = none ∨ ansLen s.data < qs0.length := by
      rcases hdisj with h | h | h
      · rw [hqd] at h
        simp at h
      · exact Or.inl (Option.isNone_iff_eq_none.mp h)
      · right
        unfold qLen at h
        rw [hqd] at h
        exact h
    split
    · next hA =>
      exfalso
      have h1 := hA.1
      rw [hmem] at h1
      simp [List.isEmpty_iff] at h1
      exact hqs0 h1
    · split
      · next hB =>
        exfalso
        have h1 := hB.1
        rw [hmem] at h1
        simp [List.isEmpty_iff] at h1
        exact hqs0 h1
      · cases hans : s.data.technical_answers with
        | none =>
          have h0 : 0 < qs0.length := List.length_pos.mpr hqs0
          split
          · split
            all_goals
              refine ⟨?_, ?_, ?_, ?_, ?_, ?_, ?_⟩
              · simp [ansLen, qLen, hqd]
                omega
              · intro l hl
                exact hInv.hts l hl
              · intro qs' hqs'
                have hqq : s.data.technical_questions = some qs' := hqs'
                rw [hqd] at hqq
                cases hqq
                exact hqs0
              · intro hx
                simp [hqd]
              · exact hInv.hsync
              · exact hInv.hcache
              · intro hx
                exact ⟨hn7, he7, hp7, hy7, hpo7, hlo7, hts7⟩
          · next hC =>
            exfalso
            simp [hans] at hC
        | some a =>
          have halen : a.length < qs0.length := by
            rcases hlt with h | h
            · rw [hans] at h
              exact absurd h (by simp)
            · unfold ansLen at h
              rw [hans] at h
              exact h
          split
          · next hC =>
            exfalso
            simp [hans] at hC
          · split
            all_goals
              refine ⟨?_, ?_, ?_, ?_, ?_, ?_, ?_⟩
              · simp [ansLen, qLen, hqd, hans]
                omega
              · intro l hl
                exact hInv.hts l hl
              · intro qs' hqs'
                have hqq : s.data.technical_questions = some qs' := hqs'
                rw [hqd] at hqq
                cases hqq
                exact hqs0
              · intro hx
                simp [hqd]
              · exact hInv.hsync
              · exact hInv.hcache
              · intro hx
                exact ⟨hn7, he7, hp7, hy7, hpo7, hlo7, hts7⟩

/-- The invariant is preserved by the stage dispatcher. -/
theorem inv_generate_response {env : Env} {s : SessionState} {msg : String}
    (hwf : EnvWF env) (hInv : Inv s) : Inv (generate_response env s msg).1 := by
  simp only [generate_response]
  split
  · exact ⟨hInv.hle, hInv.hts, hInv.hq, hInv.ha, hInv.hsync, hInv.hcache, hInv.hfields⟩
  · split
    · split
      all_goals
        exact ⟨hInv.hle, hInv.hts, hInv.hq, hInv.ha, hInv.hsync, hInv.hcache, hInv.hfields⟩
    · split
      · split
        all_goals
          exact ⟨hInv.hle, hInv.hts, hInv.hq, hInv.ha, hInv.hsync, hInv.hcache, hInv.hfields⟩
      · split
        · split
          all_goals
            exact ⟨hInv.hle, hInv.hts, hInv.hq, hInv.ha, hInv.hsync, hInv.hcache, hInv.hfields⟩
        · split
          · split
            all_goals
              exact ⟨hInv.hle, hInv.hts, hInv.hq, hInv.ha, hInv.hsync, hInv.hcache, hInv.hfields⟩
          · split
            · split
              all_goals
                exact ⟨hInv.hle, hInv.hts, hInv.hq, hInv.ha, hInv.hsync, hInv.hcache,
                  hInv.hfields⟩
            · split
              · next h6 =>
                exact inv_handle_ts hwf (inv_stageSet hInv _) h6
              · split
                · next h7 =>
                  exact inv_handle_tq hwf (inv_stageSet hInv _) h7
                · split
                  · exact ⟨hInv.hle, hInv.hts, hInv.hq, hInv.ha, hInv.hsync, hInv.hcache,
                      hInv.hfields⟩
                  · exact ⟨hInv.hle, hInv.hts, hInv.hq, hInv.ha, hInv.hsync, hInv.hcache,
                      hInv.hfields⟩

/-- The invariant is preserved by one full `process_message` turn. -/
theorem inv_step {env : Env} {s : SessionState} {msg : String}
    (hwf : EnvWF env) (hInv : Inv s) : Inv (process_message env s msg).1 := by
  simp only [process_message]
  split
  · exact inv_handle_exit hInv
  · exact inv_pm_hist (inv_generate_response hwf
      (inv_pm_sentiment (inv_pm_extract (inv_pm_hist (inv_pm_lang hInv)))))

/-- The invariant holds for a fresh session. -/
theorem inv_init : Inv initState := by
  constructor
  · simp [ansLen, qLen, initState]
  · intro l hl
    simp [initState] at hl
  · intro qs hqs
    simp [initState] at hqs
  · intro h
    simp [initState] at h
  · simp [initState]
  · intro k v hm
    simp [initState] at hm
  · intro h
    simp [initState] at h

/-- The invariant holds of every state reachable by a session whose turn
environments satisfy the shuffle contract. -/
theorem inv_run (trace : List (String × Env)) (hwf : ∀ p ∈ trace, EnvWF p.2)
    {s : SessionState} (hInv : Inv s) : Inv (runSession s trace) := by
  induction trace generalizing s with
  | nil => exact hInv
  | cons p rest ih =>
    cases p with
    | mk msg env =>
      exact ih (fun q hq => hwf q (List.mem_cons_of_mem _ hq))
        (inv_step (hwf (msg, env) (List.mem_cons_self _ _)) hInv)

/-- In an invariant state that has not been terminated, once questions
exist, leaving the Q&A stage forces the answer count to equal the question
count. -/
theorem qa_exit_equal {s : SessionState} (hInv : Inv s)
    (hnc : s.data.conversation_complete ≠ some true)
    {qs : List String} (hqs : s.data.technical_questions = some qs)
    (hne : determine_current_stage s.data ≠ stageTechnicalQuestions) :
    ansLen s.data = qs.length := by
  obtain ⟨hn, he, hp, hy, hpo, hlo, hts⟩ := hInv.hfields (by simp [hqs])
  rcases Option.isSome_iff_exists.mp hn with ⟨nv, hn_eq⟩
  rcases Option.isSome_iff_exists.mp he with ⟨ev, he_eq⟩
  rcases Option.isSome_iff_exists.mp hp with ⟨pv, hp_eq⟩
  rcases Option.isSome_iff_exists.mp hy with ⟨yv, hy_eq⟩
  rcases Option.isSome_iff_exists.mp hpo with ⟨ov, ho_eq⟩
  rcases Option.isSome_iff_exists.mp hlo with ⟨lv, hl_eq⟩
  rcases Option.isSome_iff_exists.mp hts with ⟨tv, ht_eq⟩
  have hempty : isEmptyData s.data = false := by
    unfold isEmptyData
    simp [hqs]
  have hcc : s.data.conversation_complete.getD false = false := by
    cases hc : s.data.conversation_complete with
    | none => rfl
    | some b =>
      cases b with
      | true => exact absurd hc hnc
      | false => rfl
  unfold determine_current_stage at hne
  rw [hempty, hcc, hn_eq, he_eq, hp_eq, hy_eq, ho_eq, hl_eq, ht_eq, hqs] at hne
  simp [stageTechnicalQuestions, stageFarewell, Option.isNone_iff_eq_none] at hne
  obtain ⟨hans, hge⟩ := hne
  have hle := hInv.hle
  unfold ansLen qLen at hle
  rw [hqs] at hle
  simp at hle
  unfold ansLen
  omega

/-! ## Field immutability (claim C7) -/

/-- The seven extracted fields are only ever filled in, never changed. -/
def KeepsFields (d d' : CandidateData) : Prop :=
  (∀ v, d.name = some v → d'.name = some v) ∧
  (∀ v, d.email = some v → d'.email = some v) ∧
  (∀ v, d.phone = some v → d'.phone = some v) ∧
  (∀ v, d.years_experience = some v → d'.years_experience = some v) ∧
  (∀ v, d.position = some v → d'.position = some v) ∧
  (∀ v, d.location = some v → d'.location = some v) ∧
  (∀ l, d.tech_stack = some l → d'.tech_stack = some l)

theorem keepsFields_id (d : CandidateData) : KeepsFields d d :=
  ⟨fun _ h => h, fun _ h => h, fun _ h => h, fun _ h => h, fun _ h => h,
   fun _ h => h, fun _ h => h⟩

theorem keepsFields_trans {a b c : CandidateData}
    (h1 : KeepsFields a b) (h2 : KeepsFields b c) : KeepsFields a c := by
  obtain ⟨n1, e1, p1, y1, o1, l1, t1⟩ := h1
  obtain ⟨n2, e2, p2, y2, o2, l2, t2⟩ := h2
  exact ⟨fun v h => n2 v (n1 v h), fun v h => e2 v (e1 v h), fun v h => p2 v (p1 v h),
    fun v h => y2 v (y1 v h), fun v h => o2 v (o1 v h), fun v h => l2 v (l1 v h),
    fun l h => t2 l (t1 l h)⟩

/-- `_generate_technical_questions` never touches the collected fields. -/
theorem conv_gen_keeps (env : Env) (s : SessionState) :
    (conv_generate_technical_questions env s).data.name = s.data.name ∧
    (conv_generate_technical_questions env s).data.email = s.data.email ∧
    (conv_generate_technical_questions env s).data.phone = s.data.phone ∧
    (conv_generate_technical_questions env s).data.years_experience = s.data.years_experience ∧
    (conv_generate_technical_questions env s).data.position = s.data.position ∧
    (conv_generate_technical_questions env s).data.location = s.data.location ∧
    (conv_generate_technical_questions env s).data.tech_stack = s.data.tech_stack := by
  simp only [conv_generate_technical_questions]
  split <;> exact ⟨rfl, rfl, rfl, rfl, rfl, rfl, rfl⟩

theorem keeps_tsExtractStep (s : SessionState) (msg : String) :
    KeepsFields s.data (tsExtractStep s msg).data := by
  unfold tsExtractStep
  split
  · next hg =>
    have hnone : s.data.tech_stack = none := Option.isNone_iff_eq_none.mp hg
    split
    · exact ⟨fun v hv => hv, fun v hv => hv, fun v hv => hv, fun v hv => hv,
        fun v hv => hv, fun v hv => hv, fun l' hl' => absurd hl' (by simp [hnone])⟩
    · exact keepsFields_id s.data
  · exact keepsFields_id s.data

theorem keeps_handle_ts (env : Env) (s : SessionState) (msg : String) :
    KeepsFields s.data (handle_tech_stack_collection env s msg).1.data := by
  refine keepsFields_trans (keeps_tsExtractStep s msg) ?_
  simp only [handle_tech_stack_collection]
  generalize tsExtractStep s msg = s1
  split
  · obtain ⟨hn, he, hp, hy, hpo, hlo, hts⟩ := conv_gen_keeps env
      { s1 with stage := stageTechnicalQuestions }
    split
    · exact ⟨fun v hv => hn.trans hv, fun v hv => he.trans hv, fun v hv => hp.trans hv,
        fun v hv => hy.trans hv, fun v hv => hpo.trans hv, fun v hv => hlo.trans hv,
        fun l' hl' => hts.trans hl'⟩
    · rw [tsTail_fst]
      exact ⟨fun v hv => hn.trans hv, fun v hv => he.trans hv, fun v hv => hp.trans hv,
        fun v hv => hy.trans hv, fun v hv => hpo.trans hv, fun v hv => hlo.trans hv,
        fun l' hl' => hts.trans hl'⟩
  · rw [tsTail_fst]
    exact keepsFields_id s1.data

theorem keeps_handle_tq (env : Env) (s : SessionState) (msg : String) :
    KeepsFields s.data (handle_technical_questions env s msg).1.data := by
  simp only [handle_technical_questions]
  split
  · obtain ⟨hn, he, hp, hy, hpo, hlo, hts⟩ := conv_gen_keeps env s
    split <;> split <;> split <;>
      exact ⟨fun v hv => hn.trans hv, fun v hv => he.trans hv, fun v hv => hp.trans hv,
        fun v hv => hy.trans hv, fun v hv => hpo.trans hv, fun v hv => hlo.trans hv,
        fun l hl => hts.trans hl⟩
  · split <;> split <;> split <;> exact keepsFields_id s.data

theorem keeps_generate_response (env : Env) (s : SessionState) (msg : String) :
    KeepsFields s.data (generate_response env s msg).1.data := by
  simp only [generate_response]
  split
  · exact keepsFields_id s.data
  · split
    · split
      all_goals exact keepsFields_id s.data
    · split
      · split
        all_goals exact keepsFields_id s.data
      · split
        · split
          all_goals exact keepsFields_id s.data
        · split
          · split
            all_goals exact keepsFields_id s.data
          · split
            · split
              all_goals exact keepsFields_id s.data
            · split
              · exact keeps_handle_ts env
                  { s with stage := determine_current_stage s.data } msg
              · split
                · exact keeps_handle_tq env
                    { s with stage := determine_current_stage s.data } msg
                · split
                  · exact keepsFields_id s.data
                  · exact keepsFields_id s.data

theorem keeps_pm_lang (env : Env) (s : SessionState) (msg : String) :
    KeepsFields s.data (pm_lang env s msg).data := by
  simp only [pm_lang]
  split
  · exact keepsFields_id s.data
  · split
    · exact keepsFields_id s.data
    · exact keepsFields_id s.data

theorem keeps_pm_sentiment (env : Env) (s : SessionState) :
    KeepsFields s.data (pm_sentiment env s).data := by
  unfold pm_sentiment
  split
  · exact keepsFields_id s.data
  · exact keepsFields_id s.data

theorem keeps_pm_extract (env : Env) (s : SessionState) (msg : String) :
    KeepsFields s.data (pm_extract env s msg).data := by
  obtain ⟨_, _, _, _, _, _, _, hn, he, hp, hy, hpo, hlo, htsm, _⟩ :=
    extract_rel env s.stage msg s.data
  exact ⟨hn, he, hp, hy, hpo, hlo, htsm⟩

theorem keeps_pm_hist (s : SessionState) (role content : String) :
    KeepsFields s.data (pm_hist s role content).data :=
  ⟨fun _ h => h, fun _ h => h, fun _ h => h, fun _ h => h, fun _ h => h,
   fun _ h => h, fun _ h => h⟩

set_option maxHeartbeats 1000000 in
/-- One `process_message` turn never overwrites a collected field. -/
theorem keeps_process_message (env : Env) (s : SessionState) (msg : String) :
    KeepsFields s.data (process_message env s msg).1.data := by
  simp only [process_message]
  split
  · exact keepsFields_id s.data
  · exact keepsFields_trans (keepsFields_trans (keepsFields_trans (keepsFields_trans
      (keepsFields_trans (keeps_pm_lang env s msg) (keeps_pm_hist _ "user" msg))
      (keeps_pm_extract env _ msg)) (keeps_pm_sentiment env _))
      (keeps_generate_response env _ msg)) (keeps_pm_hist _ "assistant" _)

/-! ## History bookkeeping (claim C10) -/

/-- `_update_history` always leaves at most `2 * MAX_HISTORY_LENGTH`
entries. -/
theorem update_history_length_le (history : List HistEntry) (role content : String) :
    (update_history history role content).length ≤ MAX_HISTORY_LENGTH * 2 := by
  simp only [update_history]
  split
  · next h =>
    simp only [List.length_drop]
    omega
  · next h =>
    omega

/-- `_update_history` keeps a suffix of the appended history: the retained
entries are the most recent ones, in order. -/
theorem update_history_suffix (history : List HistEntry) (role content : String) :
    ∃ dropped, dropped ++ update_history history role content =
      history ++ [⟨role, content⟩] := by
  simp only [update_history]
  by_cases hlen : MAX_HISTORY_LENGTH * 2 < (history ++ [(⟨role, content⟩ : HistEntry)]).length
  · rw [if_pos hlen]
    exact ⟨_, List.take_append_drop _ _⟩
  · rw [if_neg hlen]
    exact ⟨[], rfl⟩

/-- The stored `conversation_history` after `pm_hist` is the
`_update_history` result. -/
theorem pm_hist_stored (s : SessionState) (role content : String) :
    (pm_hist s role content).data.conversation_history =
      update_history s.history role content := rfl

/-- One `process_message` turn keeps the stored history within the cap. -/
theorem history_bound_step (env : Env) (s : SessionState) (msg : String)
    (h : s.data.conversation_history.length ≤ MAX_HISTORY_LENGTH * 2) :
    (process_message env s msg).1.data.conversation_history.length ≤
      MAX_HISTORY_LENGTH * 2 := by
  simp only [process_message]
  split
  · exact h
  · rw [pm_hist_stored]
    exact update_history_length_le _ _ _

/-! ## Router fallback (claim C4) -/

/-- If every fallback model fails or returns empty content, the chain
yields nothing. -/
theorem call_openrouter_fallback_none {results : List (Option String)}
    (h : ∀ r ∈ results, optTruthy r = false) :
    call_openrouter_fallback results = none := by
  induction results with
  | nil => rfl
  | cons r rest ih =>
    cases r with
    | none => exact ih (fun x hx => h x (List.mem_cons_of_mem _ hx))
    | some c =>
      have hc := h (some c) (List.mem_cons_self _ _)
      simp [optTruthy] at hc
      unfold call_openrouter_fallback
      rw [if_neg (by simp [hc])]
      exact ih (fun x hx => h x (List.mem_cons_of_mem _ hx))

/-! ## Email matcher decomposition (claim C8) -/

/-- `splitAtFirst` really splits at an occurrence. -/
theorem splitAtFirst_eq {c : Char} :
    ∀ {cs a b : List Char}, splitAtFirst c cs = some (a, b) → cs = a ++ c :: b := by
  intro cs
  induction cs with
  | nil => intro a b h; simp [splitAtFirst] at h
  | cons x xs ih =>
    intro a b h
    unfold splitAtFirst at h
    split at h
    · next hx =>
      cases h
      simp [hx]
    · cases hsp : splitAtFirst c xs with
      | none => rw [hsp] at h; simp at h
      | some p =>
        rw [hsp] at h
        cases p with
        | mk a' b' =>
          simp at h
          obtain ⟨ha, hb⟩ := h
          subst ha
          subst hb
          simp [ih hsp]

/-- When the character never occurs, `splitAtFirst` finds nothing. -/
theorem splitAtFirst_none_of_not_mem {c : Char} :
    ∀ {cs : List Char}, c ∉ cs → splitAtFirst c cs = none := by
  intro cs
  induction cs with
  | nil => intro hmem; rfl
  | cons x xs ih =>
    intro hmem
    unfold splitAtFirst
    have hxc : ¬(x = c) := fun hx => hmem (by rw [hx]; exact List.mem_cons_self c xs)
    rw [if_neg hxc, ih (fun hx => hmem (List.mem_cons_of_mem _ hx))]
    rfl

/-- Soundness of the regex body: an accepted character list decomposes as
`local@domain.tld` with a non-empty local part over the local character
class, a non-empty domain over the domain class, and an alphabetic TLD of
length at least 2. -/
theorem matchEmailBody_sound {cs : List Char} (h : matchEmailBody cs = true) :
    EmailShape cs := by
  unfold matchEmailBody at h
  cases hsp : splitAtFirst '@' cs with
  | none => rw [hsp] at h; simp at h
  | some p =>
    rw [hsp] at h
    cases p with
    | mk l rest =>
      dsimp only at h
      cases hsp2 : splitAtFirst '.' rest.reverse with
      | none => rw [hsp2] at h; simp at h
      | some q =>
        rw [hsp2] at h
        cases q with
        | mk trev drev =>
          dsimp only at h
          simp only [Bool.and_eq_true, Bool.not_eq_true', decide_eq_true_eq] at h
          obtain ⟨⟨⟨⟨⟨hl, hlall⟩, hd⟩, hdall⟩, htlen⟩, htall⟩ := h
          refine ⟨l, drev.reverse, trev.reverse, ?_, ?_, hlall, ?_, hdall, ?_, htall⟩
          · have h1 : cs = l ++ '@' :: rest := splitAtFirst_eq hsp
            have h2 : rest.reverse = trev ++ '.' :: drev := splitAtFirst_eq hsp2
            have h3 : rest = drev.reverse ++ '.' :: trev.reverse := by
              have := congrArg List.reverse h2
              simpa [List.reverse_append] using this
            rw [h1, h3]
          · simpa [List.isEmpty_iff] using hl
          · simpa [List.isEmpty_iff] using hd
          · simpa using htlen

/-- The first occurrence splitter recovers a decomposition whose left part
avoids the splitting character. -/
theorem splitAtFirst_append {c : Char} :
    ∀ {l : List Char} (r : List Char), c ∉ l →
      splitAtFirst c (l ++ c :: r) = some (l, r) := by
  intro l
  induction l with
  | nil =>
    intro r _
    simp [splitAtFirst]
  | cons x xs ih =>
    intro r hmem
    have hxc : ¬(x = c) := fun hx => hmem (by rw [hx]; exact List.mem_cons_self c xs)
    have hxs : c ∉ xs := fun hx => hmem (List.mem_cons_of_mem _ hx)
    simp [splitAtFirst, hxc, ih r hxs]

/-- Completeness of the regex body: every well-shaped character list is
accepted. -/
theorem matchEmailBody_complete {cs : List Char} (h : EmailShape cs) :
    matchEmailBody cs = true := by
  obtain ⟨l, d, t, heq, hl, hlall, hd, hdall, ht2, htall⟩ := h
  have hat : '@' ∉ l := by
    intro hmem
    have := List.all_eq_true.mp hlall '@' hmem
    simp [isLocalChar] at this
  have hdot : '.' ∉ t.reverse := by
    rw [List.mem_reverse]
    intro hmem
    have := List.all_eq_true.mp htall '.' hmem
    simp at this
  have hrev : (d ++ '.' :: t).reverse = t.reverse ++ '.' :: d.reverse := by
    simp
  subst heq
  unfold matchEmailBody
  rw [splitAtFirst_append _ hat]
  dsimp only
  rw [hrev, splitAtFirst_append _ hdot]
  dsimp only
  simp only [List.reverse_reverse, Bool.and_eq_true, Bool.not_eq_true',
    decide_eq_true_eq]
  refine ⟨⟨⟨⟨⟨?_, hlall⟩, ?_⟩, hdall⟩, ht2⟩, htall⟩
  · simpa [List.isEmpty_iff] using hl
  · simpa [List.isEmpty_iff] using hd

/-- The regex body accepts exactly the well-shaped character lists. -/
theorem matchEmailBody_iff (cs : List Char) :
    matchEmailBody cs = true ↔ EmailShape cs :=
  ⟨matchEmailBody_sound, matchEmailBody_complete⟩

/-- Full characterization of `_validate_email`: a string is accepted
exactly when it is non-empty, at most 254 characters long, and — either
as is, or after removing one trailing newline (which `$` permits) — has
the `local@domain.tld` shape of the regex body. -/
theorem validate_email_iff (s : String) :
    validate_email s = true ↔
      (s ≠ "" ∧ s.length ≤ 254 ∧
        (EmailShape s.toList ∨
         (s.toList.getLast? = some '\n' ∧ EmailShape s.toList.dropLast))) := by
  unfold validate_email
  constructor
  · intro hv
    split at hv
    · exact absurd hv (by simp)
    · next hguard =>
      simp only [Bool.or_eq_true, decide_eq_true_eq, not_or] at hguard
      refine ⟨hguard.1, by omega, ?_⟩
      simp only [matchEmail, Bool.or_eq_true, Bool.and_eq_true,
        decide_eq_true_eq] at hv
      rcases hv with hb | ⟨hlast, hb⟩
      · exact Or.inl (matchEmailBody_sound hb)
      · exact Or.inr ⟨hlast, matchEmailBody_sound hb⟩
  · intro ⟨hne, hlen, hshape⟩
    rw [if_neg (by simp [hne]; omega)]
    simp only [matchEmail, Bool.or_eq_true, Bool.and_eq_true, decide_eq_true_eq]
    rcases hshape with hb | ⟨hlast, hb⟩
    · exact Or.inl (matchEmailBody_complete hb)
    · exact Or.inr ⟨hlast, matchEmailBody_complete hb⟩

/-- The regex body rejects any list without `@`. -/
theorem matchEmailBody_no_at {cs : List Char} (h : '@' ∉ cs) :
    matchEmailBody cs = false := by
  unfold matchEmailBody
  rw [splitAtFirst_none_of_not_mem h]

/-- A string without `@` is rejected by the validator. -/
theorem validate_email_no_at {s : String} (h : '@' ∉ s.toList) :
    validate_email s = false := by
  unfold validate_email
  split
  · rfl
  · unfold matchEmail
    rw [matchEmailBody_no_at h,
      matchEmailBody_no_at (fun hm => h (List.mem_of_mem_dropLast hm))]
    simp

/-! ## The question-count floor (claim C2) -/

/-- The router-level generator always returns at least
`min (len tech_stack) MIN_TECHNICAL_QUESTIONS` questions. -/
theorem generate_technical_questions_floor (env : Env) (tech_stack : List String)
    (experience_years : Int) :
    min tech_stack.length MIN_TECHNICAL_QUESTIONS ≤
      (generate_technical_questions env tech_stack experience_years).length := by
  have hmm : MIN_TECHNICAL_QUESTIONS ≤ MAX_TECHNICAL_QUESTIONS := by
    simp [MIN_TECHNICAL_QUESTIONS, MAX_TECHNICAL_QUESTIONS]
  have hgen : ∀ response : String,
      min tech_stack.length MIN_TECHNICAL_QUESTIONS ≤
        (scrapeOrGeneric response tech_stack).length := by
    intro response
    simp only [scrapeOrGeneric]
    split
    · next hge =>
      simp only [List.length_take]
      omega
    · simp only [List.length_map, List.length_take]
      omega
  simp only [generate_technical_questions]
  split
  · cases hp : env.parseJsonArr (get_response env
        (techQuestionsPrompt tech_stack experience_years) "tech_questions") with
    | some questions =>
      dsimp only
      split
      · next hge =>
        simp only [List.length_take]
        omega
      · exact hgen _
    | none =>
      dsimp only
      simp only [List.length_map, List.length_take]
      omega
  · exact hgen _

/-! ## Stage-description equivalence (claim C5) -/

set_option maxHeartbeats 2000000 in
/-- The derived stage agrees everywhere with the amended description of
claim C5 (which treats an absent technical_answers key as keeping the
session in the Q&A stage). -/
theorem determine_eq_claimStageAmended (d : CandidateData) :
    determine_current_stage d = claimStageAmended d := by
  unfold determine_current_stage claimStageAmended
  split_ifs <;> first | rfl | (simp_all <;> omega)

/-! ## Concrete instantiation data for witnesses and counterexamples -/

/-- An environment in which the primary provider and every fallback fail,
no language switch happens, no extractor fires, and the random draws are
the identity choices.  It satisfies the shuffle contract. -/
def failEnv : Env :=
  { groq := fun _ => none, openrouter := fun _ => [none, some ""],
    parseJsonArr := fun _ => none,
    shuffle := fun l => l, choice := fun l => l.headD "",
    sample := fun l k => l.take k, cacheFresh := true,
    autoSwitch := fun _ cur => (cur, false, ""),
    exName := fun _ => none, exEmail := fun _ => none, exPhone := fun _ => none,
    exYears := fun _ => none, exPosition := fun _ => none, exLocation := fun _ => none,
    sentimentOn := false, reply := fun _ => "ok" }

theorem failEnv_wf : EnvWF failEnv := fun _ => rfl

/-- A candidate record with every collected field present, an empty stored
question list and no answers key: the corner on which claim C5's wording
and the code disagree. -/
def c5cex : CandidateData :=
  { name := some "Ada Lovelace", email := some "ada@example.com",
    phone := some "5551234567", years_experience := some 4,
    position := some "Engineer", location := some "London",
    tech_stack := some ["Python"], technical_questions := some [],
    technical_answers := none, conversation_complete := none,
    conversation_history := [], language := none, timestamp := none, extra := false }

/-- A session state holding already-collected values, used to witness the
no-overwrite property. -/
def c7state : SessionState :=
  { data := { name := some "Ada Lovelace", email := some "ada@example.com",
              phone := some "5551234567", years_experience := some 4,
              position := some "Engineer", location := some "London",
              tech_stack := some ["Python"], technical_questions := none,
              technical_answers := none, conversation_complete := none,
              conversation_history := [], language := none, timestamp := none,
              extra := false },
    stage := stageTechnicalQuestions, history := [], current_language := "en",
    technical_questions := [], qcache := [] }

def c1trace : List (String × Env) := [("hello there", failEnv)]

/-! ## The claims -/

/-- C1: throughout any session driven by `process_message` (started from a
fresh record), the length of the technical_answers list never exceeds the
length of the technical_questions list; and in a session that has not been
terminated, once a question list exists, the derived stage leaves the
technical_questions stage only when the two lengths are equal. -/
theorem claim_c1 (trace : List (String × Env)) (hwf : ∀ p ∈ trace, EnvWF p.2) :
    ansLen (runSession initState trace).data ≤ qLen (runSession initState trace).data ∧
    ((runSession initState trace).data.conversation_complete ≠ some true →
      ∀ qs, (runSession initState trace).data.technical_questions = some qs →
        determine_current_stage (runSession initState trace).data ≠
          stageTechnicalQuestions →
        ansLen (runSession initState trace).data = qs.length) := by
  have hInv := inv_run trace hwf inv_init
  exact ⟨hInv.hle, fun hnc qs hqs hne => qa_exit_equal hInv hnc hqs hne⟩

theorem claim_c1_witness :
    (∀ p ∈ c1trace, EnvWF p.2) ∧
    (ansLen (runSession initState c1trace).data ≤ qLen (runSession initState c1trace).data ∧
    ((runSession initState c1trace).data.conversation_complete ≠ some true →
      ∀ qs, (runSession initState c1trace).data.technical_questions = some qs →
        determine_current_stage (runSession initState c1trace).data ≠
          stageTechnicalQuestions →
        ansLen (runSession initState c1trace).data = qs.length)) := by
  have hwf : ∀ p ∈ c1trace, EnvWF p.2 := by
    intro p hp
    rcases List.mem_singleton.mp hp with rfl
    exact failEnv_wf
  exact ⟨hwf, claim_c1 c1trace hwf⟩

/-- C2 (as amended): when the provider chain and all parsing fail, the
router-level question generator returns one generic question per
technology, capped at the configured minimum — hence at least
`min (len tech_stack) MIN_TECHNICAL_QUESTIONS` questions, which is fewer
than `MIN_TECHNICAL_QUESTIONS` when the stack has fewer technologies; for
`["Python"]` the floor is a single question. -/
theorem claim_c2 :
    (∀ (env : Env) (tech_stack : List String) (experience_years : Int),
      min tech_stack.length MIN_TECHNICAL_QUESTIONS ≤
        (generate_technical_questions env tech_stack experience_years).length) ∧
    1 ≤ (generate_technical_questions failEnv ["Python"] 3).length :=
  ⟨generate_technical_questions_floor,
   generate_technical_questions_floor failEnv ["Python"] 3⟩

/-- C2 counterexample: with the provider chain and parsing all failing,
`generate_technical_questions ["Python"] 3` returns exactly one question —
strictly fewer than `MIN_TECHNICAL_QUESTIONS = 3` — refuting the claimed
floor. -/
theorem claim_c2_counterexample :
    (generate_technical_questions failEnv ["Python"] 3).length = 1 ∧
    (generate_technical_questions failEnv ["Python"] 3).length <
      MIN_TECHNICAL_QUESTIONS := by
  constructor
  · rfl
  · rw [(rfl : (generate_technical_questions failEnv ["Python"] 3).length = 1)]
    decide

/-- C3: a message containing an exit keyword short-circuits
`process_message` from any state to the fixed terminal farewell, sets
`conversation_complete`, and performs no extraction — every collected
field, the Q&A lists and the history are left untouched. -/
theorem claim_c3 (env : Env) (s : SessionState) (msg : String)
    (h : containsExitKeyword msg = true) :
    (process_message env s msg).2 =
      "Thank you for your time. The interview has been concluded. The TalentScout team will review your information and will be in touch if there\x27s a match for your profile. Have a great day!" ∧
    (process_message env s msg).1.data.conversation_complete = some true ∧
    (process_message env s msg).1.data.name = s.data.name ∧
    (process_message env s msg).1.data.email = s.data.email ∧
    (process_message env s msg).1.data.phone = s.data.phone ∧
    (process_message env s msg).1.data.years_experience = s.data.years_experience ∧
    (process_message env s msg).1.data.position = s.data.position ∧
    (process_message env s msg).1.data.location = s.data.location ∧
    (process_message env s msg).1.data.tech_stack = s.data.tech_stack ∧
    (process_message env s msg).1.data.technical_questions = s.data.technical_questions ∧
    (process_message env s msg).1.data.technical_answers = s.data.technical_answers ∧
    (process_message env s msg).1.data.conversation_history = s.data.conversation_history := by
  simp only [process_message]
  rw [if_pos h]
  exact ⟨rfl, rfl, rfl, rfl, rfl, rfl, rfl, rfl, rfl, rfl, rfl, rfl⟩

theorem claim_c3_witness :
    containsExitKeyword "bye" = true ∧
    (process_message failEnv c7state "bye").2 =
      "Thank you for your time. The interview has been concluded. The TalentScout team will review your information and will be in touch if there\x27s a match for your profile. Have a great day!" ∧
    (process_message failEnv c7state "bye").1.data.conversation_complete = some true := by
  have h : containsExitKeyword "bye" = true := by decide
  have hc := claim_c3 failEnv c7state "bye" h
  exact ⟨h, hc.1, hc.2.1⟩

/-- C4: when the primary provider fails (or returns empty content) and
every fallback model also fails, `get_response` returns the canned string
keyed by the given use_case — for `"greeting"`, the fixed greeting-stage
string — rather than raising. -/
theorem claim_c4 (env : Env) (prompt use_case : String)
    (hg : optTruthy (env.groq prompt) = false)
    (ho : ∀ r ∈ env.openrouter prompt, optTruthy r = false) :
    get_response env prompt use_case = get_fallback_response use_case ∧
    get_response env prompt "greeting" =
      "Hello! I\x27m here to help you with your application. Could you please tell me your name?" := by
  have hor := call_openrouter_fallback_none ho
  constructor
  · simp only [get_response, hg, hor, Bool.false_eq_true, if_false]
    simp [optTruthy]
  · simp only [get_response, hg, hor, Bool.false_eq_true, if_false]
    simp only [optTruthy, Bool.false_eq_true, if_false]
    rfl

theorem claim_c4_witness :
    optTruthy (failEnv.groq "hi") = false ∧
    (∀ r ∈ failEnv.openrouter "hi", optTruthy r = false) ∧
    get_response failEnv "hi" "greeting" =
      "Hello! I\x27m here to help you with your application. Could you please tell me your name?" := by
  have hg : optTruthy (failEnv.groq "hi") = false := rfl
  have ho : ∀ r ∈ failEnv.openrouter "hi", optTruthy r = false := by decide
  exact ⟨hg, ho, (claim_c4 failEnv "hi" "greeting" hg ho).2⟩

/-- C5 (as amended): for every candidate record the derived stage is
greeting on the empty record; complete when conversation_complete is true;
else the first stage, in the fixed order, whose required fields are not
all present (contact_info requiring both email and phone); else
technical_questions when the question list is absent, or the answers key
is absent, or the answers are shorter than the questions; else farewell. -/
theorem claim_c5 (d : CandidateData) :
    determine_current_stage d = claimStageAmended d :=
  determine_eq_claimStageAmended d

/-- C5 counterexample: on a record whose stored question list is empty
while the answers key is absent, the code stays in the
technical_questions stage, but the claim's wording (reading a missing
answers list as length 0, hence not shorter than an empty question list)
dictates farewell. -/
theorem claim_c5_counterexample :
    determine_current_stage c5cex = stageTechnicalQuestions ∧
    claimStage c5cex = stageFarewell := by
  constructor
  · rfl
  · rfl

/-- C6: saving a record for a session id and then loading that id returns
the record with every previously set field unchanged (the save stamps only
the `timestamp` key). -/
theorem claim_c6 (store : Store) (session_id : String) (d : CandidateData) (now : String) :
    load_candidate_data (save_candidate_data store true session_id d now) true session_id =
      some { d with timestamp := some now } ∧
    ({ d with timestamp := some now }).name = d.name ∧
    ({ d with timestamp := some now }).email = d.email ∧
    ({ d with timestamp := some now }).phone = d.phone ∧
    ({ d with timestamp := some now }).years_experience = d.years_experience ∧
    ({ d with timestamp := some now }).position = d.position ∧
    ({ d with timestamp := some now }).location = d.location ∧
    ({ d with timestamp := some now }).tech_stack = d.tech_stack ∧
    ({ d with timestamp := some now }).technical_questions = d.technical_questions ∧
    ({ d with timestamp := some now }).technical_answers = d.technical_answers ∧
    ({ d with timestamp := some now }).conversation_complete = d.conversation_complete ∧
    ({ d with timestamp := some now }).conversation_history = d.conversation_history ∧
    ({ d with timestamp := some now }).language = d.language := by
  refine ⟨?_, rfl, rfl, rfl, rfl, rfl, rfl, rfl, rfl, rfl, rfl, rfl, rfl⟩
  simp [save_candidate_data, load_candidate_data]

/-- C7: one `process_message` turn never overwrites a collected field:
whatever value name, email, phone, years_experience, position, location or
tech_stack held before the turn, it holds afterwards. -/
theorem claim_c7 (env : Env) (s : SessionState) (msg : String) :
    (∀ v, s.data.name = some v → (process_message env s msg).1.data.name = some v) ∧
    (∀ v, s.data.email = some v → (process_message env s msg).1.data.email = some v) ∧
    (∀ v, s.data.phone = some v → (process_message env s msg).1.data.phone = some v) ∧
    (∀ v, s.data.years_experience = some v →
      (process_message env s msg).1.data.years_experience = some v) ∧
    (∀ v, s.data.position = some v → (process_message env s msg).1.data.position = some v) ∧
    (∀ v, s.data.location = some v → (process_message env s msg).1.data.location = some v) ∧
    (∀ l, s.data.tech_stack = some l →
      (process_message env s msg).1.data.tech_stack = some l) :=
  keeps_process_message env s msg

theorem claim_c7_witness :
    c7state.data.name = some "Ada Lovelace" ∧
    (process_message failEnv c7state "my name is Grace").1.data.name =
      some "Ada Lovelace" ∧
    c7state.data.tech_stack = some ["Python"] ∧
    (process_message failEnv c7state "I use Java").1.data.tech_stack = some ["Python"] := by
  refine ⟨rfl, ?_, rfl, ?_⟩
  · exact (claim_c7 failEnv c7state "my name is Grace").1 "Ada Lovelace" rfl
  · exact (claim_c7 failEnv c7state "I use Java").2.2.2.2.2.2 ["Python"] rfl

/-- A well-shaped address of 262 characters: the local part alone has 250
characters. -/
def longEmail : String :=
  String.mk (List.replicate 250 'a' ++ '@' :: ("example".toList ++ '.' :: "com".toList))

/-- C8 (as amended): the email validator accepts `john.smith@example.com`
and rejects `john.smith@.com` and `not-an-email`; it also accepts
`john@example.com` followed by one trailing newline (Python's `$`); it
rejects every string without an `@`; and it accepts a string exactly when
the string is non-empty, at most 254 characters long, and — as is, or
after removing a single trailing newline — has the shape
`local@domain.tld` with a non-empty local part over `[a-zA-Z0-9._%+-]`, a
non-empty domain over `[a-zA-Z0-9.-]`, and an alphabetic TLD of at least
2 letters. -/
theorem claim_c8 :
    validate_email "john.smith@example.com" = true ∧
    validate_email "john.smith@.com" = false ∧
    validate_email "not-an-email" = false ∧
    validate_email "john@example.com\n" = true ∧
    (∀ s : String, '@' ∉ s.toList → validate_email s = false) ∧
    (∀ s : String, validate_email s = true ↔
      (s ≠ "" ∧ s.length ≤ 254 ∧
        (EmailShape s.toList ∨
         (s.toList.getLast? = some '\n' ∧ EmailShape s.toList.dropLast)))) := by
  refine ⟨by decide, by decide, by decide, by decide, ?_, ?_⟩
  · exact fun s h => validate_email_no_at h
  · exact validate_email_iff

theorem claim_c8_witness :
    ('@' ∉ "not-an-email".toList ∧ validate_email "not-an-email" = false) ∧
    ("john.smith@example.com" ≠ "" ∧ ("john.smith@example.com" : String).length ≤ 254 ∧
      (EmailShape "john.smith@example.com".toList ∨
       ("john.smith@example.com".toList.getLast? = some '\n' ∧
        EmailShape "john.smith@example.com".toList.dropLast))) ∧
    ("john@example.com\n" ≠ "" ∧ ("john@example.com\n" : String).length ≤ 254 ∧
      (EmailShape "john@example.com\n".toList ∨
       ("john@example.com\n".toList.getLast? = some '\n' ∧
        EmailShape "john@example.com\n".toList.dropLast))) := by
  have hat : '@' ∉ "not-an-email".toList := by decide
  exact ⟨⟨hat, claim_c8.2.2.2.2.1 "not-an-email" hat⟩,
    (claim_c8.2.2.2.2.2 "john.smith@example.com").mp (by decide),
    (claim_c8.2.2.2.2.2 "john@example.com\n").mp (by decide)⟩

set_option maxRecDepth 4000 in
/-- C8 counterexample: a 262-character address that has exactly the
claimed `local@domain.tld` shape (250-character local part, alphabetic
3-letter TLD) is rejected by the validator, because of its 254-character
cap — so the validator does not accept "exactly when" a string has that
shape. -/
theorem claim_c8_counterexample :
    validate_email longEmail = false ∧ EmailShape longEmail.toList := by
  constructor
  · rfl
  · exact ⟨List.replicate 250 'a', "example".toList, "com".toList,
      rfl, by decide, by decide, by decide, by decide, by decide, by decide⟩

/-- C9: on the given message, over the configured vocabulary, tech-stack
extraction returns exactly the six canonical names, without duplicates, in
the order of their first occurrence in the message. -/
theorem claim_c9 :
    extract_tech_stack "I work with Python, JavaScript, React, Django, PostgreSQL, and AWS" =
      some ["Python", "JavaScript", "React", "Django", "PostgreSQL", "AWS"] := by
  rfl

/-- C10: every `_update_history` call leaves at most
`2 * MAX_HISTORY_LENGTH = 20` stored entries and keeps the most recent
entries in order (the retained list is a suffix of the appended history);
consequently every `process_message` turn keeps the stored
conversation_history within the cap. -/
theorem claim_c10 :
    (∀ (h : List HistEntry) (role content : String),
      (update_history h role content).length ≤ MAX_HISTORY_LENGTH * 2 ∧
      ∃ dropped, dropped ++ update_history h role content =
        h ++ [⟨role, content⟩]) ∧
    (∀ (env : Env) (s : SessionState) (msg : String),
      s.data.conversation_history.length ≤ MAX_HISTORY_LENGTH * 2 →
      (process_message env s msg).1.data.conversation_history.length ≤
        MAX_HISTORY_LENGTH * 2) :=
  ⟨fun h r c => ⟨update_history_length_le h r c, update_history_suffix h r c⟩,
   fun env s msg hle => history_bound_step env s msg hle⟩

theorem claim_c10_witness :
    c7state.data.conversation_history.length ≤ MAX_HISTORY_LENGTH * 2 ∧
    (process_message failEnv c7state "hello there").1.data.conversation_history.length ≤
      MAX_HISTORY_LENGTH * 2 :=
  ⟨by decide, claim_c10.2 failEnv c7state "hello there" (by decide)⟩

end TalentScout
